import Mathlib

/-!
# Verification of the StarRocks CSV scanner core (`be/src/exec/csv_scanner.cpp`)

This file gives a shallow embedding of the CSV scanner's record-processing
pipeline and proves the frozen specification claims against it.

Conventions:
* Byte sequences (records, fields, delimiters) are `List Nat`.
* External collaborators that live outside `csv_scanner.cpp` (the CSV reader's
  tokenizer, the per-type converters, `validate_utf8`, `StringParser`) are
  either modelled from the spec (marked `Modelled from the spec:` in their doc
  comments) or abstracted as function parameters whose outcome the theorems
  quantify over.
* Status values mirror the `Status` objects produced by the scanner.
-/

set_option autoImplicit false

namespace CsvScanner

/-- Embedding of the subset of `starrocks::Status` values the scanner produces:
`OK`, `EndOfFile`, `TimedOut`, `DataQualityError`, `InternalError`, plus a
generic I/O error constructor for other source failures. -/
inductive Status where
  | ok
  | endOfFile (msg : String)
  | timeOut (msg : String)
  | dataQualityError (msg : String)
  | internalError (msg : String)
  | ioError (msg : String)
deriving DecidableEq

/-- Embedding of `TFileScanType`: the three scan contexts distinguished by
`_parse_csv` / `_parse_csv_v2` (broker/stream load, INSERT from FILES(),
interactive query of FILES()). -/
inductive TFileScanType where
  | LOAD
  | FILES_INSERT
  | FILES_QUERY
deriving DecidableEq

/-- Modelled from the spec: `TypeDescriptor` lives outside this file; only the
constructors used by `get_type_desc` (BIGINT, DOUBLE, BOOLEAN, VARCHAR) plus an
opaque remainder are represented. -/
inductive TypeDesc where
  | bigint
  | double
  | boolean
  | varchar (len : Nat)
  | other (name : String)
deriving DecidableEq

/-- Modelled from the spec: rendering of `TypeDescriptor::debug_string()`
(outside this file); an injective textual rendering of the type. -/
def TypeDesc.debug_string : TypeDesc → String
  | .bigint => "BIGINT"
  | .double => "DOUBLE"
  | .boolean => "BOOLEAN"
  | .varchar n => "VARCHAR(" ++ toString n ++ ")"
  | .other s => s

/-- `TypeDescriptor::MAX_VARCHAR_LENGTH`, the length used by `get_type_desc`
for the default VARCHAR guess (value outside this file, modelled). -/
def MAX_VARCHAR_LENGTH : Nat := 1048576

/-- Embedding of the part of `SlotDescriptor` the scanner reads: its column
name and declared type.  A slot of the source schema. -/
structure SlotDescriptor where
  id : Nat
  col_name : String
  type : TypeDesc
deriving DecidableEq

/-- Embedding of `CSVParseOptions`: delimiters are byte sequences, `enclose`
and `escape` are single bytes with `0` meaning "unset". -/
structure CSVParseOptions where
  column_delimiter : List Nat
  row_delimiter : List Nat
  skip_header : Nat
  trim_space : Bool
  enclose : Nat
  escape : Nat
deriving DecidableEq

/-- `REPORT_ERROR_MAX_NUMBER`: the fixed cap on detailed error reports. -/
def REPORT_ERROR_MAX_NUMBER : Nat := 50

/-- One cell appended to a column sink: a successfully converted value
(tagged with the raw field bytes it came from), an explicit null appended by a
lenient converter, or a default value appended for a missing trailing field. -/
inductive Cell where
  | value (field : List Nat)
  | null
  | defaultVal
deriving DecidableEq

/-- Modelled from the spec: `Slice::to_string()` — the raw bytes of a record
or field viewed as a string (used only to build error messages). -/
def recToString (r : List Nat) : String :=
  String.mk (r.map Char.ofNat)

/-- Embedding of `string_2_asc` for a single byte: `\n` and `\t` are escaped,
printable ASCII is kept, anything else is rendered as lowercase hex with a
`0x` prefix (as `std::hex` does on the unsigned byte). -/
def ascByte (c : Nat) : String :=
  if c = 10 then "\\n"
  else if c = 9 then "\\t"
  else if 32 ≤ c ∧ c ≤ 126 then String.mk [Char.ofNat c]
  else "0x" ++ String.mk (Nat.toDigits 16 (c % 256))

/-- Embedding of `string_2_asc`: the whole byte sequence rendered in escaped
display form, wrapped in single quotes. -/
def string_2_asc (s : List Nat) : String :=
  "'" ++ String.join (s.map ascByte) ++ "'"

/-- Embedding of `make_column_count_not_matched_error_message_for_load`. -/
def make_column_count_not_matched_error_message_for_load
    (expected actual : Nat) (opts : CSVParseOptions) : String :=
  "Target column count: " ++
    (toString expected ++
      (" doesn't match source value column count: " ++
        (toString actual ++
          (". Column separator: " ++
            (string_2_asc opts.column_delimiter ++
              (", Row delimiter: " ++ string_2_asc opts.row_delimiter))))))

/-- Embedding of `make_column_count_not_matched_error_message_for_query`. -/
def make_column_count_not_matched_error_message_for_query
    (expected actual : Nat) (opts : CSVParseOptions) (row filename : String) :
    String :=
  "Schema column count: " ++
    (toString expected ++
      (" doesn't match source value column count: " ++
        (toString actual ++
          ((". Column separator: " ++ string_2_asc opts.column_delimiter ++
              ", Row delimiter: " ++ string_2_asc opts.row_delimiter ++
              ", Row: '") ++
            (row ++
              ("', File: " ++
                (filename ++
                  ". Consider setting 'fill_mismatch_column_with' = 'null'")))))))

/-- Embedding of `make_value_type_not_matched_error_message`. -/
def make_value_type_not_matched_error_message
    (field_pos : Nat) (field : List Nat) (slot : SlotDescriptor) : String :=
  ("The field (name = " ++ slot.col_name ++ ", pos = ") ++
    (toString field_pos ++
      (") is out of range. Type: " ++
        (slot.type.debug_string ++
          (", Value length: " ++
            (toString field.length ++ (", Value: " ++ recToString field))))))

/-- `leadsWith p s`: `p` is a byte-wise prefix of `s`. -/
def leadsWith : List Nat → List Nat → Bool
  | [], _ => true
  | _ :: _, [] => false
  | a :: as, b :: bs => a == b && leadsWith as bs

/-- `hasEnding p s`: `p` is a byte-wise suffix of `s`. -/
def hasEnding (p s : List Nat) : Bool :=
  leadsWith p.reverse s.reverse

/-- Modelled from the spec: `CSVBuffer::find` (outside this file) — the offset
of the first occurrence of the (multi-byte) delimiter sequence in `s`. -/
def findSeq (delim : List Nat) : List Nat → Option Nat
  | [] => if delim = [] then some 0 else none
  | a :: rest =>
    if leadsWith delim (a :: rest) then some 0
    else (findSeq delim rest).map (· + 1)

/-- Modelled from the spec: the fuelled worker for splitting a record on the
column-delimiter sequence (§4.2 `split_record`); each found delimiter ends one
zero-copy field, the final field is the remainder.  Fuel `s.length` is always
sufficient for a non-empty delimiter. -/
def splitGo (delim : List Nat) : Nat → List Nat → List (List Nat)
  | 0, s => [s]
  | fuel + 1, s =>
    match findSeq delim s with
    | none => [s]
    | some i => s.take i :: splitGo delim fuel (s.drop (i + delim.length))

/-- Modelled from the spec: per-field space trimming (`trim_space`):
leading/trailing ASCII space bytes are excluded from the field's slice. -/
def trimField (s : List Nat) : List Nat :=
  ((s.dropWhile (· == 32)).reverse.dropWhile (· == 32)).reverse

/-- Modelled from the spec: `CSVReader::split_record` (outside this file,
§4.2): a fully empty record yields zero fields; otherwise the record is split
on the column delimiter, with optional space trimming per field. -/
def split_record (opts : CSVParseOptions) (rec : List Nat) : List (List Nat) :=
  if rec = [] then []
  else
    let fs := splitGo opts.column_delimiter rec.length rec
    if opts.trim_space then fs.map trimField else fs

/-- Modelled from the spec: the per-converter contract of
`csv::Converter::read_string_for_adaptive_null_column` (§4.4, outside this
file).  `cc t f` abstracts whether the raw field bytes `f` parse as type `t`.
On success the typed value is appended; on failure a lenient converter
(`invalid_field_as_null = true`) appends a null marker and succeeds, while a
strict converter returns failure without mutating the column. -/
def read_string_for_adaptive_null_column
    (cc : TypeDesc → List Nat → Bool) (invalid_field_as_null : Bool)
    (t : TypeDesc) (field : List Nat) (col : List Cell) : List Cell × Bool :=
  if cc t field then (col ++ [Cell.value field], true)
  else if invalid_field_as_null then (col ++ [Cell.null], true)
  else (col, false)

/-- Information captured when a conversion fails in strict mode: the field
position `j`, the slot descriptor, and the raw field bytes (the arguments of
`make_value_type_not_matched_error_message`). -/
structure ConvErr where
  pos : Nat
  slot : SlotDescriptor
  field : List Nat
deriving DecidableEq

/-- Embedding of the per-row conversion loop of `_parse_csv` (`for j, k`):
the enumerated slot list holds the pairs `(j, _src_slot_descriptors[j])` for
`j < _num_fields_in_csv`; `cols` holds one column sink per retained
(non-null) slot, aligned with the retained slots in order.  A `none` slot is
skipped; a retained position `j` past the row's field count appends one
default value; otherwise the field is converted, and a strict-mode failure
stops the loop, reporting the failing position. -/
def convertFields (cc : TypeDesc → List Nat → Bool) (lenient : Bool)
    (fields : List (List Nat)) :
    List (Nat × Option SlotDescriptor) → List (List Cell) →
    List (List Cell) × Option ConvErr
  | [], cols => (cols, none)
  | (_, none) :: rest, cols => convertFields cc lenient fields rest cols
  | (_, some _) :: _, [] => ([], none)
  | (j, some slot) :: rest, c :: cs =>
    if h : j < fields.length then
      match read_string_for_adaptive_null_column cc lenient slot.type
          (fields.get ⟨j, h⟩) c with
      | (c1, true) =>
        let r := convertFields cc lenient fields rest cs
        (c1 :: r.1, r.2)
      | (c1, false) => (c1 :: cs, some ⟨j, slot, fields.get ⟨j, h⟩⟩)
    else
      let r := convertFields cc lenient fields rest cs
      ((c ++ [Cell.defaultVal]) :: r.1, r.2)

/-- `(i, l[0]), (i+1, l[1]), ...`: enumeration of a slot list starting at
index `i` (the `for (j = 0; j < _num_fields_in_csv; j++)` iteration space). -/
def enumFromIdx (i : Nat) : List (Option SlotDescriptor) →
    List (Nat × Option SlotDescriptor)
  | [] => []
  | s :: rest => (i, s) :: enumFromIdx (i + 1) rest

/-- Number of retained (non-ignored) slots in an enumerated slot list: the
number of converters / chunk columns allocated for it. -/
def retainedCount : List (Nat × Option SlotDescriptor) → Nat
  | [] => 0
  | (_, none) :: rest => retainedCount rest
  | (_, some _) :: rest => retainedCount rest + 1

/-- The scanner-level configuration consumed by `_parse_csv`:
scan context, flexible-mapping override, schema width, source slots, strict
mode, rejected-record logging, parse options and current file name, plus the
two abstracted collaborators (`validate_utf8` and the converter's parse
outcome `canConvert`). -/
structure ScanCtx where
  scan_type : TFileScanType
  flexible_column_mapping : Bool
  num_fields_in_csv : Nat
  slots : List (Option SlotDescriptor)
  strict_mode : Bool
  enable_log_rejected : Bool
  opts : CSVParseOptions
  filename : String
  validate_utf8 : List Nat → Bool
  canConvert : TypeDesc → List Nat → Bool

/-- The enumerated slot list `(j, _src_slot_descriptors[j])` for
`j < _num_fields_in_csv`. -/
def enumSlots (ctx : ScanCtx) : List (Nat × Option SlotDescriptor) :=
  enumFromIdx 0 (ctx.slots.take ctx.num_fields_in_csv)

/-- The scanner's error-side state: the `num_rows_filtered` counter, the
error-message sink (`_report_error`, capped at `REPORT_ERROR_MAX_NUMBER`) and
the rejected-record sink (`_report_rejected_record`, gated by
`enable_log_rejected_record`). -/
structure ErrState where
  num_rows_filtered : Nat
  errors : List (List Nat × String)
  rejected : List (List Nat × String)
deriving DecidableEq

/-- Embedding of the shared discard pattern of `_parse_csv`:
`if (_counter->num_rows_filtered++ < REPORT_ERROR_MAX_NUMBER) _report_error(...)`
followed by the optional rejected-record emission. -/
def bumpError (enableLog : Bool) (es : ErrState) (rec : List Nat)
    (msg : String) : ErrState :=
  { num_rows_filtered := es.num_rows_filtered + 1
    errors :=
      if es.num_rows_filtered < REPORT_ERROR_MAX_NUMBER then
        es.errors ++ [(rec, msg)]
      else es.errors
    rejected :=
      if enableLog then es.rejected ++ [(rec, msg)] else es.rejected }

/-- Outcome of processing one record in the `_parse_csv` loop body:
blank row skipped, row discarded (loop continues), fatal status returned from
the whole parse, or row successfully converted and counted. -/
inductive RowStep where
  | skipped
  | filtered
  | fatal (st : Status)
  | converted
deriving DecidableEq

/-- `true` exactly on the `fatal` outcome. -/
def RowStep.isFatal : RowStep → Bool
  | .fatal _ => true
  | _ => false

/-- Embedding of one iteration of the `_parse_csv` loop body on a record
already returned by `next_record`: blank-row skip, the Load/Insert column-count
filter, the Query column-count hard failure, the UTF-8 validity filter, and
the conversion loop with strict-mode rollback
(`chunk->set_num_rows(num_rows)`).  `numRows` is the committed row count at
row start; `cols` are the retained columns of the chunk.  `rowFields` is the
`fields` local of `_parse_csv`: the record split on the column delimiter. -/
def rowFields (ctx : ScanCtx) (rec : List Nat) : List (List Nat) :=
  split_record ctx.opts rec

/-- Embedding of one iteration of the `_parse_csv` loop body on a record
already returned by `next_record` (second half; see the doc comment above
`rowFields`). -/
def processRecord (ctx : ScanCtx) (numRows : Nat) (cols : List (List Cell))
    (es : ErrState) (rec : List Nat) :
    List (List Cell) × ErrState × RowStep :=
  if rec = [] then (cols, es, RowStep.skipped)
  else if ((ctx.scan_type = TFileScanType.LOAD ∧
        (rowFields ctx rec).length ≠ ctx.num_fields_in_csv) ∨
      (ctx.scan_type = TFileScanType.FILES_INSERT ∧
        (rowFields ctx rec).length < ctx.num_fields_in_csv)) ∧
      ctx.flexible_column_mapping = false then
    (cols,
      bumpError ctx.enable_log_rejected es rec
        (make_column_count_not_matched_error_message_for_load
          ctx.num_fields_in_csv (rowFields ctx rec).length ctx.opts),
      RowStep.filtered)
  else if ctx.scan_type = TFileScanType.FILES_QUERY ∧
      (rowFields ctx rec).length < ctx.num_fields_in_csv ∧
      ctx.flexible_column_mapping = false then
    (cols, es,
      RowStep.fatal (Status.dataQualityError
        (make_column_count_not_matched_error_message_for_query
          ctx.num_fields_in_csv (rowFields ctx rec).length ctx.opts
          (recToString rec) ctx.filename)))
  else if ctx.validate_utf8 rec = false then
    (cols, bumpError ctx.enable_log_rejected es rec "Invalid UTF-8 row",
      RowStep.filtered)
  else
    match convertFields ctx.canConvert (!ctx.strict_mode) (rowFields ctx rec)
        (enumSlots ctx) cols with
    | (cols1, none) => (cols1, es, RowStep.converted)
    | (cols1, some e) =>
      (cols1.map (fun c => c.take numRows),
        bumpError ctx.enable_log_rejected es rec
          (make_value_type_not_matched_error_message e.pos e.field e.slot),
        RowStep.filtered)

/-- One result of a `next_record` call: either a record delivered with an OK
status, or a non-OK, non-EOF status (e.g. a timeout) returned to the caller.
End-of-file is represented by the end of the event list (per §4.2,
`next_record` yields a record or `EndOfStream`, never both). -/
inductive ReadEvent where
  | record (r : List Nat)
  | err (st : Status)
deriving DecidableEq

/-- `true` iff the event is an `err` carrying `Status.ok` (ill-formed: a
`next_record` failure never carries the OK status). -/
def ReadEvent.isOkStatus : ReadEvent → Bool
  | .err Status.ok => true
  | _ => false

/-- Embedding of the `for (num_rows < capacity)` loop of `_parse_csv`.
Returns the chunk columns, the error state, the committed row count, and
`some st` if the loop returned early with status `st` (`none` when it fell
out at capacity or broke on end-of-file). -/
def parseCsvGo (ctx : ScanCtx) (capacity : Nat) :
    List ReadEvent → Nat → List (List Cell) → ErrState →
    List (List Cell) × ErrState × Nat × Option Status
  | evs, numRows, cols, es =>
    if capacity ≤ numRows then (cols, es, numRows, none)
    else
      match evs with
      | [] => (cols, es, numRows, none)
      | ReadEvent.err st :: _ => (cols, es, numRows, some st)
      | ReadEvent.record r :: rest =>
        match processRecord ctx numRows cols es r with
        | (cols1, es1, RowStep.skipped) =>
          parseCsvGo ctx capacity rest numRows cols1 es1
        | (cols1, es1, RowStep.filtered) =>
          parseCsvGo ctx capacity rest numRows cols1 es1
        | (cols1, es1, RowStep.fatal st) => (cols1, es1, numRows, some st)
        | (cols1, es1, RowStep.converted) =>
          parseCsvGo ctx capacity rest (numRows + 1) cols1 es1

/-- Embedding of `_parse_csv`: runs the loop and applies the final
`return chunk->num_rows() > 0 ? Status::OK() : Status::EndOfFile("")`
translation to a normal loop exit (early returns keep their status). -/
def parseCsv (ctx : ScanCtx) (capacity : Nat) (evs : List ReadEvent)
    (cols : List (List Cell)) (es : ErrState) :
    List (List Cell) × ErrState × Nat × Status :=
  match parseCsvGo ctx capacity evs 0 cols es with
  | (c, e, n, some st) => (c, e, n, st)
  | (c, e, n, none) =>
    (c, e, n, if 0 < n then Status.ok else Status.endOfFile "")

/-- The chunk columns after `src_chunk->set_num_rows(0)`: one empty column per
retained slot. -/
def initCols (ctx : ScanCtx) : List (List Cell) :=
  List.replicate (retainedCount (enumSlots ctx)) []

/-- Embedding of the `do { ... } while (num_rows == 0)` loop of
`CSVScanner::get_next`: each file of the scan range contributes one event
list; an end-of-file parse result advances to the next file, a timeout is
propagated only when the current chunk is still empty, any other non-OK
status is propagated, and a chunk is returned only with its committed row
count.  Exhausting all files yields `EndOfFile("CSVScanner")` from
`_init_reader`. -/
def getNext (ctx : ScanCtx) (capacity : Nat) :
    List (List ReadEvent) → ErrState →
    Except Status (List (List Cell) × Nat × ErrState)
  | [], _ => Except.error (Status.endOfFile "CSVScanner")
  | f :: rest, es =>
    match parseCsv ctx capacity f (initCols ctx) es with
    | (cols, es1, n, Status.ok) => Except.ok (cols, n, es1)
    | (_, es1, _, Status.endOfFile _) => getNext ctx capacity rest es1
    | (cols, es1, n, Status.timeOut m) =>
      if n = 0 then Except.error (Status.timeOut m)
      else Except.ok (cols, n, es1)
    | (_, _, _, st) => Except.error st

/-- Embedding of `CSVBuffer` (§3 Buffer): fixed `capacity`, read cursor
`pos`, and the valid bytes `data` (so `limit = data.length`). -/
structure CSVBuffer where
  capacity : Nat
  pos : Nat
  data : List Nat
deriving DecidableEq

/-- `CSVBuffer::available()`: `limit - position`. -/
def CSVBuffer.avail (b : CSVBuffer) : Nat := b.data.length - b.pos

/-- `CSVBuffer::free_space()`: `capacity - limit`. -/
def CSVBuffer.free_space (b : CSVBuffer) : Nat := b.capacity - b.data.length

/-- The unread bytes `[position, limit)` of the buffer. -/
def CSVBuffer.availBytes (b : CSVBuffer) : List Nat := b.data.drop b.pos

/-- Embedding of `ScannerCSVReader::_fill_buffer` after the `_file->read`
call: `readRes` is the outcome of the read (`Except.error st` for a failed
read whose status is propagated, `Except.ok bytes` otherwise, with `[]` on an
exhausted source).  On a zero-byte read, if the available bytes do not already
end with the row delimiter, one copy of the delimiter is synthesized when
`free_space` allows it (otherwise `InternalError` "CSV line length exceed
limit"), and an empty buffer yields `EndOfFile(filename)`
(`add_limit(0)` is a no-op, so the zero-byte branch reads `b` unchanged).
The `update_num_bytes_scan_from_source` progress counter is out of scope. -/
def fill_buffer (row_delimiter : List Nat) (filename : String)
    (b : CSVBuffer) (readRes : Except Status (List Nat)) :
    Except Status CSVBuffer :=
  match readRes with
  | Except.error st => Except.error st
  | Except.ok bytes =>
    if bytes = [] then
      let n := b.avail
      let afterSynth : Except Status CSVBuffer :=
        if n < row_delimiter.length ∨
            hasEnding row_delimiter b.availBytes = false then
          if b.free_space < row_delimiter.length then
            Except.error (Status.internalError
              ("CSV line length exceed limit " ++ toString b.capacity))
          else Except.ok { b with data := b.data ++ row_delimiter }
        else Except.ok b
      match afterSynth with
      | Except.error st => Except.error st
      | Except.ok b2 =>
        if n = 0 then Except.error (Status.endOfFile filename)
        else Except.ok b2
    else Except.ok { b with data := b.data ++ bytes }

/-- The error message of `_init_reader` when `skip_header` outruns the file:
`fmt::format("The parameter 'skip_header' is set to {}, but there are only {}
rows in the csv file", skip_header, i)` rendered. -/
def skipHeaderMsg (k i : Nat) : String :=
  "The parameter 'skip_header' is set to " ++
    (toString k ++
      (", but there are only " ++ (toString i ++ " rows in the csv file")))

/-- Embedding of the `skip_header` loop of `_init_reader`; the file is
modelled as its list of rows, `next_record` consuming one row per call and
returning `EndOfFile` once they are exhausted (Modelled from the spec:
`CSVReader::next_record` is outside this file, §4.2).  The loop counts down
the remaining skips, so the C++ loop counter `i` equals `k - remaining`. -/
def skipHeaderLoop (k : Nat) : Nat → List (List Nat) →
    Except Status (List (List Nat))
  | 0, rows => Except.ok rows
  | n + 1, [] => Except.error (Status.endOfFile (skipHeaderMsg k (k - (n + 1))))
  | n + 1, _ :: rest => skipHeaderLoop k n rest

/-- The status `_init_reader` produces from the `skip_header` loop alone
(start offset zero): `OK` when all `k` header rows were read, otherwise the
descriptive `EndOfFile`. -/
def initReaderSkipHeader (k : Nat) (rows : List (List Nat)) : Status :=
  match skipHeaderLoop k k rows with
  | Except.ok _ => Status.ok
  | Except.error st => st

/-- Embedding of `get_type_desc`: the type-probing ladder.  The
`StringParser` probes (`string_to_int<int64_t>`, `string_to_float<double>`,
`string_to_bool`, outside this file) are abstracted as the success predicates
`pInt`, `pFloat`, `pBool`. -/
def get_type_desc (pInt pFloat pBool : List Nat → Bool)
    (field : List Nat) : TypeDesc :=
  if pInt field then TypeDesc.bigint
  else if pFloat field then TypeDesc.double
  else if pBool field then TypeDesc.boolean
  else TypeDesc.varchar MAX_VARCHAR_LENGTH

/-- One entry of a candidate schema produced by inference:
`(position, synthesized name, guessed type)`. -/
structure InferredSlot where
  pos : Nat
  name : String
  type : TypeDesc
deriving DecidableEq

/-- Embedding of the per-row schema construction of `_get_schema`:
`schema.emplace_back(i, fmt::format("${}", i + 1), get_type_desc(fields[i]))`
for each field, starting at position `i`. -/
def mkSchemaFields (pInt pFloat pBool : List Nat → Bool) :
    Nat → List (List Nat) → List InferredSlot
  | _, [] => []
  | i, f :: rest =>
    ⟨i, "$" ++ toString (i + 1), get_type_desc pInt pFloat pBool f⟩ ::
      mkSchemaFields pInt pFloat pBool (i + 1) rest

/-- The candidate schema of one sampled record: its fields enumerated from
position `0`. -/
def mkRowSchema (pInt pFloat pBool : List Nat → Bool)
    (opts : CSVParseOptions) (rec : List Nat) : List InferredSlot :=
  mkSchemaFields pInt pFloat pBool 0 (split_record opts rec)

/-- Embedding of the sampling loop of `_get_schema`
(`for (i = 0; i < schema_sample_file_row_count;)`): the file is modelled as
its list of records; end-of-file breaks, an empty record is skipped without
incrementing `i`, and each non-blank record contributes one candidate schema.
The cross-row `merge_schema` step is an external collaborator and out of
scope; this function produces the list of per-row candidate schemas. -/
def getSchemaGo (pInt pFloat pBool : List Nat → Bool)
    (opts : CSVParseOptions) :
    Nat → List (List Nat) → List (List InferredSlot)
  | 0, _ => []
  | _ + 1, [] => []
  | n + 1, r :: rest =>
    if r = [] then getSchemaGo pInt pFloat pBool opts (n + 1) rest
    else mkRowSchema pInt pFloat pBool opts r ::
      getSchemaGo pInt pFloat pBool opts n rest

/-- A UTF-8 validator abstraction that accepts every row (used to build
concrete scanner configurations). -/
def vuAll : List Nat → Bool := fun _ => true

/-- A UTF-8 validator abstraction that rejects rows containing byte `255`
(`0xFF` never occurs in valid UTF-8). -/
def vuNo255 : List Nat → Bool := fun r => !(r.contains 255)

/-- A converter outcome abstraction that parses every field. -/
def ccAll : TypeDesc → List Nat → Bool := fun _ _ => true

/-- A converter outcome abstraction that fails exactly on the field `"b"`
(byte `98`). -/
def ccNotB : TypeDesc → List Nat → Bool := fun _ f => !(f == [98])

/-- A concrete two-column scanner configuration (comma column delimiter,
newline row delimiter, no flexible mapping, no rejected-record log) used to
instantiate the theorems on concrete inputs. -/
def mkCtx (ty : TFileScanType) (strict : Bool) (vu : List Nat → Bool)
    (cc : TypeDesc → List Nat → Bool) : ScanCtx :=
  { scan_type := ty
    flexible_column_mapping := false
    num_fields_in_csv := 2
    slots := [some ⟨0, "c0", TypeDesc.bigint⟩, some ⟨1, "c1", TypeDesc.bigint⟩]
    strict_mode := strict
    enable_log_rejected := false
    opts := ⟨[44], [10], 0, false, 0, 0⟩
    filename := "data.csv"
    validate_utf8 := vu
    canConvert := cc }

/-! ## Equation lemmas for the conversion loop -/

theorem convertFields_nil_slots (cc : TypeDesc → List Nat → Bool)
    (lenient : Bool) (fields : List (List Nat)) (cols : List (List Cell)) :
    convertFields cc lenient fields [] cols = (cols, none) := rfl

theorem convertFields_skip_slot (cc : TypeDesc → List Nat → Bool)
    (lenient : Bool) (fields : List (List Nat)) (j : Nat)
    (rest : List (Nat × Option SlotDescriptor)) (cols : List (List Cell)) :
    convertFields cc lenient fields ((j, none) :: rest) cols =
      convertFields cc lenient fields rest cols := rfl

theorem convertFields_nil_cols (cc : TypeDesc → List Nat → Bool)
    (lenient : Bool) (fields : List (List Nat)) (j : Nat)
    (slot : SlotDescriptor) (rest : List (Nat × Option SlotDescriptor)) :
    convertFields cc lenient fields ((j, some slot) :: rest) [] =
      ([], none) := rfl

theorem convertFields_value (cc : TypeDesc → List Nat → Bool)
    (lenient : Bool) (fields : List (List Nat)) (j : Nat)
    (slot : SlotDescriptor) (rest : List (Nat × Option SlotDescriptor))
    (c : List Cell) (cs : List (List Cell)) (hj : j < fields.length)
    (hcc : cc slot.type fields[j] = true) :
    convertFields cc lenient fields ((j, some slot) :: rest) (c :: cs) =
      ((c ++ [Cell.value fields[j]]) ::
          (convertFields cc lenient fields rest cs).1,
        (convertFields cc lenient fields rest cs).2) := by
  simp [convertFields, dif_pos hj, read_string_for_adaptive_null_column, hcc]

theorem convertFields_lenient_null (cc : TypeDesc → List Nat → Bool)
    (fields : List (List Nat)) (j : Nat) (slot : SlotDescriptor)
    (rest : List (Nat × Option SlotDescriptor)) (c : List Cell)
    (cs : List (List Cell)) (hj : j < fields.length)
    (hcc : cc slot.type fields[j] = false) :
    convertFields cc true fields ((j, some slot) :: rest) (c :: cs) =
      ((c ++ [Cell.null]) :: (convertFields cc true fields rest cs).1,
        (convertFields cc true fields rest cs).2) := by
  simp [convertFields, dif_pos hj, read_string_for_adaptive_null_column, hcc]

theorem convertFields_strict_fail (cc : TypeDesc → List Nat → Bool)
    (fields : List (List Nat)) (j : Nat) (slot : SlotDescriptor)
    (rest : List (Nat × Option SlotDescriptor)) (c : List Cell)
    (cs : List (List Cell)) (hj : j < fields.length)
    (hcc : cc slot.type fields[j] = false) :
    convertFields cc false fields ((j, some slot) :: rest) (c :: cs) =
      (c :: cs, some ⟨j, slot, fields[j]⟩) := by
  simp [convertFields, dif_pos hj, read_string_for_adaptive_null_column, hcc]

theorem convertFields_missing (cc : TypeDesc → List Nat → Bool)
    (lenient : Bool) (fields : List (List Nat)) (j : Nat)
    (slot : SlotDescriptor) (rest : List (Nat × Option SlotDescriptor))
    (c : List Cell) (cs : List (List Cell)) (hj : ¬ j < fields.length) :
    convertFields cc lenient fields ((j, some slot) :: rest) (c :: cs) =
      ((c ++ [Cell.defaultVal]) :: (convertFields cc lenient fields rest cs).1,
        (convertFields cc lenient fields rest cs).2) := by
  simp [convertFields, dif_neg hj]

/-! ## Helper lemmas -/

theorem map_take_id {n : Nat} {cols : List (List Cell)}
    (h : ∀ c ∈ cols, c.length = n) :
    cols.map (fun c => c.take n) = cols := by
  induction cols with
  | nil => rfl
  | cons c cs ih =>
    have hc : c.take n = c := by
      rw [← h c (List.mem_cons_self c cs)]; exact List.take_length c
    simp only [List.map_cons, hc]
    exact congrArg (List.cons c) (ih fun x hx => h x (List.mem_cons_of_mem _ hx))

theorem take_append_one {n : Nat} {c : List Cell} {x : Cell}
    (hc : c.length = n) : (c ++ [x]).take n = c := by
  rw [← hc]
  exact List.take_left c [x]

/-- Appends performed by `convertFields` never touch the first `numRows`
entries of any column: truncating every output column back to `numRows`
restores the input columns (the `chunk->set_num_rows(num_rows)` rollback). -/
theorem convertFields_take (cc : TypeDesc → List Nat → Bool) (lenient : Bool)
    (fields : List (List Nat)) (numRows : Nat) :
    ∀ (l : List (Nat × Option SlotDescriptor)) (cols : List (List Cell)),
    (∀ c ∈ cols, c.length = numRows) →
    (convertFields cc lenient fields l cols).1.map (fun c => c.take numRows) =
      cols := by
  intro l
  induction l with
  | nil => intro cols h; simpa [convertFields_nil_slots] using map_take_id h
  | cons p rest ih =>
    intro cols h
    obtain ⟨j, s⟩ := p
    cases s with
    | none => rw [convertFields_skip_slot]; exact ih cols h
    | some slot =>
      cases cols with
      | nil => simp [convertFields_nil_cols]
      | cons c cs =>
        have hc : c.length = numRows := h c (List.mem_cons_self c cs)
        have hcs : ∀ x ∈ cs, x.length = numRows :=
          fun x hx => h x (List.mem_cons_of_mem _ hx)
        by_cases hj : j < fields.length
        · cases hcc : cc slot.type fields[j] with
          | true =>
            rw [convertFields_value cc lenient fields j slot rest c cs hj hcc]
            simp only [List.map_cons, take_append_one hc]
            exact congrArg (List.cons c) (ih cs hcs)
          | false =>
            cases lenient with
            | true =>
              rw [convertFields_lenient_null cc fields j slot rest c cs hj hcc]
              simp only [List.map_cons, take_append_one hc]
              exact congrArg (List.cons c) (ih cs hcs)
            | false =>
              rw [convertFields_strict_fail cc fields j slot rest c cs hj hcc]
              simp only [List.map_cons]
              have hcid : c.take numRows = c := by
                rw [← hc]; exact List.take_length c
              rw [hcid]
              exact congrArg (List.cons c) (map_take_id hcs)
        · rw [convertFields_missing cc lenient fields j slot rest c cs hj]
          simp only [List.map_cons, take_append_one hc]
          exact congrArg (List.cons c) (ih cs hcs)

/-- With `invalid_field_as_null = true` (lenient mode), a converter never
fails, so the conversion loop never reports an error. -/
theorem convertFields_lenient_none (cc : TypeDesc → List Nat → Bool)
    (fields : List (List Nat)) :
    ∀ (l : List (Nat × Option SlotDescriptor)) (cols : List (List Cell)),
    (convertFields cc true fields l cols).2 = none := by
  intro l
  induction l with
  | nil => intro cols; simp [convertFields_nil_slots]
  | cons p rest ih =>
    intro cols
    obtain ⟨j, s⟩ := p
    cases s with
    | none => rw [convertFields_skip_slot]; exact ih cols
    | some slot =>
      cases cols with
      | nil => simp [convertFields_nil_cols]
      | cons c cs =>
        by_cases hj : j < fields.length
        · cases hcc : cc slot.type fields[j] with
          | true =>
            rw [convertFields_value cc true fields j slot rest c cs hj hcc]
            exact ih cs
          | false =>
            rw [convertFields_lenient_null cc fields j slot rest c cs hj hcc]
            exact ih cs
        · rw [convertFields_missing cc true fields j slot rest c cs hj]
          exact ih cs

/-- Every index in `enumFromIdx i l` is below `i + l.length`. -/
theorem enumFromIdx_lt (i : Nat) (l : List (Option SlotDescriptor)) :
    ∀ p ∈ enumFromIdx i l, p.1 < i + l.length := by
  induction l generalizing i with
  | nil => intro p hp; simp [enumFromIdx] at hp
  | cons s rest ih =>
    intro p hp
    simp only [enumFromIdx, List.mem_cons] at hp
    rcases hp with hp | hp
    · subst hp; simp
    · have := ih (i + 1) p hp
      simp only [List.length_cons]
      omega

/-- The conversion loop only reads fields at indices mentioned in the slot
enumeration: when all those indices are below `m ≤ fields.length`, extra
trailing fields beyond `m` are ignored. -/
theorem convertFields_take_fields (cc : TypeDesc → List Nat → Bool)
    (lenient : Bool) (fields : List (List Nat)) (m : Nat)
    (hm : m ≤ fields.length) :
    ∀ (l : List (Nat × Option SlotDescriptor)) (cols : List (List Cell)),
    (∀ p ∈ l, p.1 < m) →
    convertFields cc lenient fields l cols =
      convertFields cc lenient (fields.take m) l cols := by
  intro l
  induction l with
  | nil => intro cols _; simp [convertFields_nil_slots]
  | cons p rest ih =>
    intro cols hl
    obtain ⟨j, s⟩ := p
    have hj : j < m := hl (j, s) (List.mem_cons_self _ _)
    have hrest : ∀ q ∈ rest, q.1 < m :=
      fun q hq => hl q (List.mem_cons_of_mem _ hq)
    cases s with
    | none => rw [convertFields_skip_slot, convertFields_skip_slot]; exact ih cols hrest
    | some slot =>
      cases cols with
      | nil => rw [convertFields_nil_cols, convertFields_nil_cols]
      | cons c cs =>
        have hjf : j < fields.length := lt_of_lt_of_le hj hm
        have hjt : j < (fields.take m).length := by
          simp [List.length_take]
          omega
        have hget : (fields.take m)[j] = fields[j] := by
          simp
        cases hcc : cc slot.type fields[j] with
        | true =>
          rw [convertFields_value cc lenient fields j slot rest c cs hjf hcc,
            convertFields_value cc lenient (fields.take m) j slot rest c cs hjt
              (by rw [hget]; exact hcc),
            hget, ih cs hrest]
        | false =>
          cases lenient with
          | true =>
            rw [convertFields_lenient_null cc fields j slot rest c cs hjf hcc,
              convertFields_lenient_null cc (fields.take m) j slot rest c cs hjt
                (by rw [hget]; exact hcc),
              ih cs hrest]
          | false =>
            rw [convertFields_strict_fail cc fields j slot rest c cs hjf hcc,
              convertFields_strict_fail cc (fields.take m) j slot rest c cs hjt
                (by rw [hget]; exact hcc),
              hget]

/-- Splitting the conversion loop at a slot-list boundary: a successful run
on the first part composes with the run on the second part. -/
theorem convertFields_append (cc : TypeDesc → List Nat → Bool)
    (lenient : Bool) (fields : List (List Nat))
    (l2 : List (Nat × Option SlotDescriptor)) (c2 : List (List Cell)) :
    ∀ (l1 : List (Nat × Option SlotDescriptor)) (c1 c1' : List (List Cell)),
    c1.length = retainedCount l1 →
    convertFields cc lenient fields l1 c1 = (c1', none) →
    convertFields cc lenient fields (l1 ++ l2) (c1 ++ c2) =
      (c1' ++ (convertFields cc lenient fields l2 c2).1,
        (convertFields cc lenient fields l2 c2).2) := by
  intro l1
  induction l1 with
  | nil =>
    intro c1 c1' hlen h1
    have hc1 : c1 = [] := List.length_eq_zero.mp (by simpa [retainedCount] using hlen)
    subst hc1
    rw [convertFields_nil_slots] at h1
    cases h1
    simp
  | cons p rest ih =>
    intro c1 c1' hlen h1
    obtain ⟨j, s⟩ := p
    cases s with
    | none =>
      rw [convertFields_skip_slot] at h1
      rw [List.cons_append, convertFields_skip_slot]
      exact ih c1 c1' (by simpa [retainedCount] using hlen) h1
    | some slot =>
      cases c1 with
      | nil => simp [retainedCount] at hlen
      | cons c cs =>
        have hcs : cs.length = retainedCount rest := by
          simpa [retainedCount] using hlen
        by_cases hj : j < fields.length
        · cases hcc : cc slot.type fields[j] with
          | true =>
            rw [convertFields_value cc lenient fields j slot rest c cs hj hcc] at h1
            cases hrec : convertFields cc lenient fields rest cs with
            | mk cs' e =>
              rw [hrec] at h1
              simp only [Prod.mk.injEq] at h1
              obtain ⟨h1a, h1b⟩ := h1
              subst h1b
              rw [List.cons_append, List.cons_append,
                convertFields_value cc lenient fields j slot (rest ++ l2) c
                  (cs ++ c2) hj hcc,
                ih cs cs' hcs (by rw [hrec]), ← h1a]
              simp
          | false =>
            cases lenient with
            | true =>
              rw [convertFields_lenient_null cc fields j slot rest c cs hj hcc] at h1
              cases hrec : convertFields cc true fields rest cs with
              | mk cs' e =>
                rw [hrec] at h1
                simp only [Prod.mk.injEq] at h1
                obtain ⟨h1a, h1b⟩ := h1
                subst h1b
                rw [List.cons_append, List.cons_append,
                  convertFields_lenient_null cc fields j slot (rest ++ l2) c
                    (cs ++ c2) hj hcc,
                  ih cs cs' hcs (by rw [hrec]), ← h1a]
                simp
            | false =>
              rw [convertFields_strict_fail cc fields j slot rest c cs hj hcc] at h1
              simp at h1
        · rw [convertFields_missing cc lenient fields j slot rest c cs hj] at h1
          cases hrec : convertFields cc lenient fields rest cs with
          | mk cs' e =>
            rw [hrec] at h1
            simp only [Prod.mk.injEq] at h1
            obtain ⟨h1a, h1b⟩ := h1
            subst h1b
            rw [List.cons_append, List.cons_append,
              convertFields_missing cc lenient fields j slot (rest ++ l2) c
                (cs ++ c2) hj,
              ih cs cs' hcs (by rw [hrec]), ← h1a]
            simp

/-- When every slot position in the enumeration is at or past the row's field
count, each retained slot appends exactly one default value and the loop
succeeds. -/
theorem convertFields_defaults (cc : TypeDesc → List Nat → Bool)
    (lenient : Bool) (fields : List (List Nat)) :
    ∀ (l : List (Nat × Option SlotDescriptor)) (cols : List (List Cell)),
    (∀ p ∈ l, fields.length ≤ p.1) →
    cols.length = retainedCount l →
    convertFields cc lenient fields l cols =
      (cols.map (fun c => c ++ [Cell.defaultVal]), none) := by
  intro l
  induction l with
  | nil =>
    intro cols _ hlen
    have : cols = [] := List.length_eq_zero.mp (by simpa [retainedCount] using hlen)
    subst this
    simp [convertFields_nil_slots]
  | cons p rest ih =>
    intro cols hl hlen
    obtain ⟨j, s⟩ := p
    have hrest : ∀ q ∈ rest, fields.length ≤ q.1 :=
      fun q hq => hl q (List.mem_cons_of_mem _ hq)
    cases s with
    | none =>
      rw [convertFields_skip_slot]
      exact ih cols hrest (by simpa [retainedCount] using hlen)
    | some slot =>
      cases cols with
      | nil => simp [retainedCount] at hlen
      | cons c cs =>
        have hj : ¬ j < fields.length := by
          have := hl (j, some slot) (List.mem_cons_self _ _)
          omega
        rw [convertFields_missing cc lenient fields j slot rest c cs hj,
          ih cs hrest (by simpa [retainedCount] using hlen)]
        simp

/-! ## Branch lemmas for `processRecord` and loop equations -/

theorem processRecord_mismatch (ctx : ScanCtx) (numRows : Nat)
    (cols : List (List Cell)) (es : ErrState) (rec : List Nat)
    (hrec : ¬ rec = [])
    (hcond : ((ctx.scan_type = TFileScanType.LOAD ∧
        (rowFields ctx rec).length ≠ ctx.num_fields_in_csv) ∨
      (ctx.scan_type = TFileScanType.FILES_INSERT ∧
        (rowFields ctx rec).length < ctx.num_fields_in_csv)) ∧
      ctx.flexible_column_mapping = false) :
    processRecord ctx numRows cols es rec =
      (cols,
        bumpError ctx.enable_log_rejected es rec
          (make_column_count_not_matched_error_message_for_load
            ctx.num_fields_in_csv (rowFields ctx rec).length ctx.opts),
        RowStep.filtered) := by
  unfold processRecord
  rw [if_neg hrec, if_pos hcond]

theorem processRecord_query_fail (ctx : ScanCtx) (numRows : Nat)
    (cols : List (List Cell)) (es : ErrState) (rec : List Nat)
    (hrec : ¬ rec = [])
    (hc1 : ¬ (((ctx.scan_type = TFileScanType.LOAD ∧
        (rowFields ctx rec).length ≠ ctx.num_fields_in_csv) ∨
      (ctx.scan_type = TFileScanType.FILES_INSERT ∧
        (rowFields ctx rec).length < ctx.num_fields_in_csv)) ∧
      ctx.flexible_column_mapping = false))
    (hc2 : ctx.scan_type = TFileScanType.FILES_QUERY ∧
      (rowFields ctx rec).length < ctx.num_fields_in_csv ∧
      ctx.flexible_column_mapping = false) :
    processRecord ctx numRows cols es rec =
      (cols, es,
        RowStep.fatal (Status.dataQualityError
          (make_column_count_not_matched_error_message_for_query
            ctx.num_fields_in_csv (rowFields ctx rec).length ctx.opts
            (recToString rec) ctx.filename))) := by
  unfold processRecord
  rw [if_neg hrec, if_neg hc1, if_pos hc2]

theorem processRecord_utf8_fail (ctx : ScanCtx) (numRows : Nat)
    (cols : List (List Cell)) (es : ErrState) (rec : List Nat)
    (hrec : ¬ rec = [])
    (hc1 : ¬ (((ctx.scan_type = TFileScanType.LOAD ∧
        (rowFields ctx rec).length ≠ ctx.num_fields_in_csv) ∨
      (ctx.scan_type = TFileScanType.FILES_INSERT ∧
        (rowFields ctx rec).length < ctx.num_fields_in_csv)) ∧
      ctx.flexible_column_mapping = false))
    (hc2 : ¬ (ctx.scan_type = TFileScanType.FILES_QUERY ∧
      (rowFields ctx rec).length < ctx.num_fields_in_csv ∧
      ctx.flexible_column_mapping = false))
    (hutf : ctx.validate_utf8 rec = false) :
    processRecord ctx numRows cols es rec =
      (cols, bumpError ctx.enable_log_rejected es rec "Invalid UTF-8 row",
        RowStep.filtered) := by
  unfold processRecord
  rw [if_neg hrec, if_neg hc1, if_neg hc2, if_pos hutf]

theorem processRecord_convert (ctx : ScanCtx) (numRows : Nat)
    (cols : List (List Cell)) (es : ErrState) (rec : List Nat)
    (hrec : ¬ rec = [])
    (hc1 : ¬ (((ctx.scan_type = TFileScanType.LOAD ∧
        (rowFields ctx rec).length ≠ ctx.num_fields_in_csv) ∨
      (ctx.scan_type = TFileScanType.FILES_INSERT ∧
        (rowFields ctx rec).length < ctx.num_fields_in_csv)) ∧
      ctx.flexible_column_mapping = false))
    (hc2 : ¬ (ctx.scan_type = TFileScanType.FILES_QUERY ∧
      (rowFields ctx rec).length < ctx.num_fields_in_csv ∧
      ctx.flexible_column_mapping = false))
    (hutf : ¬ ctx.validate_utf8 rec = false) :
    processRecord ctx numRows cols es rec =
      (match convertFields ctx.canConvert (!ctx.strict_mode)
          (rowFields ctx rec) (enumSlots ctx) cols with
      | (cols1, none) => (cols1, es, RowStep.converted)
      | (cols1, some e) =>
        (cols1.map (fun c => c.take numRows),
          bumpError ctx.enable_log_rejected es rec
            (make_value_type_not_matched_error_message e.pos e.field e.slot),
          RowStep.filtered)) := by
  unfold processRecord
  rw [if_neg hrec, if_neg hc1, if_neg hc2, if_neg hutf]

theorem parseCsvGo_stop (ctx : ScanCtx) (capacity : Nat)
    (evs : List ReadEvent) (numRows : Nat) (cols : List (List Cell))
    (es : ErrState) (h : capacity ≤ numRows) :
    parseCsvGo ctx capacity evs numRows cols es = (cols, es, numRows, none) := by
  unfold parseCsvGo
  rw [if_pos h]

theorem parseCsvGo_nil (ctx : ScanCtx) (capacity : Nat) (numRows : Nat)
    (cols : List (List Cell)) (es : ErrState) :
    parseCsvGo ctx capacity [] numRows cols es = (cols, es, numRows, none) := by
  unfold parseCsvGo
  split <;> rfl

theorem parseCsvGo_err (ctx : ScanCtx) (capacity : Nat) (st : Status)
    (rest : List ReadEvent) (numRows : Nat) (cols : List (List Cell))
    (es : ErrState) (h : numRows < capacity) :
    parseCsvGo ctx capacity (ReadEvent.err st :: rest) numRows cols es =
      (cols, es, numRows, some st) := by
  unfold parseCsvGo
  rw [if_neg (Nat.not_le.mpr h)]

theorem parseCsvGo_record (ctx : ScanCtx) (capacity : Nat) (r : List Nat)
    (rest : List ReadEvent) (numRows : Nat) (cols : List (List Cell))
    (es : ErrState) (h : numRows < capacity) :
    parseCsvGo ctx capacity (ReadEvent.record r :: rest) numRows cols es =
      (match processRecord ctx numRows cols es r with
      | (c1, e1, RowStep.skipped) => parseCsvGo ctx capacity rest numRows c1 e1
      | (c1, e1, RowStep.filtered) => parseCsvGo ctx capacity rest numRows c1 e1
      | (c1, e1, RowStep.fatal st) => (c1, e1, numRows, some st)
      | (c1, e1, RowStep.converted) =>
        parseCsvGo ctx capacity rest (numRows + 1) c1 e1) := by
  conv_lhs => unfold parseCsvGo
  rw [if_neg (Nat.not_le.mpr h)]

theorem parseCsvGo_record_filtered (ctx : ScanCtx) (capacity : Nat)
    (r : List Nat) (rest : List ReadEvent) (numRows : Nat)
    (cols c1 : List (List Cell)) (es e1 : ErrState) (h : numRows < capacity)
    (hp : processRecord ctx numRows cols es r = (c1, e1, RowStep.filtered)) :
    parseCsvGo ctx capacity (ReadEvent.record r :: rest) numRows cols es =
      parseCsvGo ctx capacity rest numRows c1 e1 := by
  rw [parseCsvGo_record ctx capacity r rest numRows cols es h, hp]

theorem parseCsvGo_record_fatal (ctx : ScanCtx) (capacity : Nat)
    (r : List Nat) (rest : List ReadEvent) (numRows : Nat)
    (cols c1 : List (List Cell)) (es e1 : ErrState) (st : Status)
    (h : numRows < capacity)
    (hp : processRecord ctx numRows cols es r = (c1, e1, RowStep.fatal st)) :
    parseCsvGo ctx capacity (ReadEvent.record r :: rest) numRows cols es =
      (c1, e1, numRows, some st) := by
  rw [parseCsvGo_record ctx capacity r rest numRows cols es h, hp]

/-! ## Claim theorems -/

/-- **C1**: in Load context a tokenized row whose field count differs from the
schema field count (and in Insert-from-files context one with fewer fields),
with flexible column mapping disabled, is discarded: no value is appended to
the column sink, `num_rows_filtered` is incremented, the column-count-mismatch
message is reported (while the counter is under the cap), and the parse loop
continues with the next row without aborting the batch. -/
theorem load_insert_mismatch_discards_row (ctx : ScanCtx) (numRows : Nat)
    (cols : List (List Cell)) (es : ErrState) (rec : List Nat)
    (hrec : ¬ rec = [])
    (hcond : ((ctx.scan_type = TFileScanType.LOAD ∧
        (rowFields ctx rec).length ≠ ctx.num_fields_in_csv) ∨
      (ctx.scan_type = TFileScanType.FILES_INSERT ∧
        (rowFields ctx rec).length < ctx.num_fields_in_csv)) ∧
      ctx.flexible_column_mapping = false) :
    processRecord ctx numRows cols es rec =
      (cols,
        bumpError ctx.enable_log_rejected es rec
          (make_column_count_not_matched_error_message_for_load
            ctx.num_fields_in_csv (rowFields ctx rec).length ctx.opts),
        RowStep.filtered) ∧
    (bumpError ctx.enable_log_rejected es rec
        (make_column_count_not_matched_error_message_for_load
          ctx.num_fields_in_csv (rowFields ctx rec).length ctx.opts)
      ).num_rows_filtered = es.num_rows_filtered + 1 ∧
    (es.num_rows_filtered < REPORT_ERROR_MAX_NUMBER →
      (bumpError ctx.enable_log_rejected es rec
          (make_column_count_not_matched_error_message_for_load
            ctx.num_fields_in_csv (rowFields ctx rec).length ctx.opts)
        ).errors = es.errors ++
          [(rec, make_column_count_not_matched_error_message_for_load
            ctx.num_fields_in_csv (rowFields ctx rec).length ctx.opts)]) ∧
    (∀ (capacity : Nat) (rest : List ReadEvent), numRows < capacity →
      parseCsvGo ctx capacity (ReadEvent.record rec :: rest) numRows cols es =
        parseCsvGo ctx capacity rest numRows cols
          (bumpError ctx.enable_log_rejected es rec
            (make_column_count_not_matched_error_message_for_load
              ctx.num_fields_in_csv (rowFields ctx rec).length ctx.opts))) := by
  refine ⟨processRecord_mismatch ctx numRows cols es rec hrec hcond, rfl,
    fun h => ?_, fun capacity rest h => ?_⟩
  · simp [bumpError, if_pos h]
  · exact parseCsvGo_record_filtered ctx capacity rec rest numRows cols cols es
      _ h (processRecord_mismatch ctx numRows cols es rec hrec hcond)

/-- Witness for C1: schema width 2, Load context, row `"a"` (one field). -/
theorem load_insert_mismatch_discards_row_witness :
    processRecord (mkCtx TFileScanType.LOAD true vuAll ccAll) 0 [[], []]
        ⟨0, [], []⟩ [97] =
      ([[], []],
        bumpError false ⟨0, [], []⟩ [97]
          (make_column_count_not_matched_error_message_for_load 2 1
            ⟨[44], [10], 0, false, 0, 0⟩),
        RowStep.filtered) :=
  (load_insert_mismatch_discards_row (mkCtx TFileScanType.LOAD true vuAll ccAll)
    0 [[], []] ⟨0, [], []⟩ [97] (by decide) (by decide)).1

/-- **C2**: in Interactive-query (FILES_QUERY) context with flexible mapping
disabled, a row with fewer fields than the schema makes the whole parse fail
immediately with a `DataQualityError` whose message contains the expected and
actual column counts, the raw row text, and the file name; rows with at least
as many fields as the schema are never fatal, and the conversion loop ignores
fields beyond the schema width. -/
theorem query_missing_columns_fails_scan (ctx : ScanCtx) (numRows : Nat)
    (cols : List (List Cell)) (es : ErrState) (rec : List Nat)
    (hq : ctx.scan_type = TFileScanType.FILES_QUERY)
    (hflex : ctx.flexible_column_mapping = false)
    (hrec : ¬ rec = [])
    (hlt : (rowFields ctx rec).length < ctx.num_fields_in_csv) :
    processRecord ctx numRows cols es rec =
      (cols, es,
        RowStep.fatal (Status.dataQualityError
          (make_column_count_not_matched_error_message_for_query
            ctx.num_fields_in_csv (rowFields ctx rec).length ctx.opts
            (recToString rec) ctx.filename))) ∧
    (∃ s1 s2 s3 s4 s5 : String,
      make_column_count_not_matched_error_message_for_query
          ctx.num_fields_in_csv (rowFields ctx rec).length ctx.opts
          (recToString rec) ctx.filename =
        s1 ++ (toString ctx.num_fields_in_csv ++
          (s2 ++ (toString (rowFields ctx rec).length ++
            (s3 ++ (recToString rec ++ (s4 ++ (ctx.filename ++ s5)))))))) ∧
    (∀ (capacity : Nat) (rest : List ReadEvent), numRows < capacity →
      parseCsvGo ctx capacity (ReadEvent.record rec :: rest) numRows cols es =
        (cols, es, numRows,
          some (Status.dataQualityError
            (make_column_count_not_matched_error_message_for_query
              ctx.num_fields_in_csv (rowFields ctx rec).length ctx.opts
              (recToString rec) ctx.filename)))) ∧
    (∀ (numRows' : Nat) (cols' : List (List Cell)) (es' : ErrState)
        (rec' : List Nat), ¬ rec' = [] →
      ctx.num_fields_in_csv ≤ (rowFields ctx rec').length →
      (processRecord ctx numRows' cols' es' rec').2.2.isFatal = false) ∧
    (∀ (lenient : Bool) (fields : List (List Nat)) (cols1 : List (List Cell)),
      ctx.num_fields_in_csv ≤ fields.length →
      convertFields ctx.canConvert lenient fields (enumSlots ctx) cols1 =
        convertFields ctx.canConvert lenient
          (fields.take ctx.num_fields_in_csv) (enumSlots ctx) cols1) := by
  have hc1 : ∀ r : List Nat, ¬ (((ctx.scan_type = TFileScanType.LOAD ∧
      (rowFields ctx r).length ≠ ctx.num_fields_in_csv) ∨
    (ctx.scan_type = TFileScanType.FILES_INSERT ∧
      (rowFields ctx r).length < ctx.num_fields_in_csv)) ∧
    ctx.flexible_column_mapping = false) := by
    intro r
    rintro ⟨hA | hA, -⟩
    · rw [hq] at hA; exact absurd hA.1 (by decide)
    · rw [hq] at hA; exact absurd hA.1 (by decide)
  have hmain := processRecord_query_fail ctx numRows cols es rec hrec (hc1 rec)
    ⟨hq, hlt, hflex⟩
  refine ⟨hmain, ?_, fun capacity rest h => ?_, ?_, ?_⟩
  · exact ⟨"Schema column count: ",
      " doesn't match source value column count: ",
      ". Column separator: " ++ string_2_asc ctx.opts.column_delimiter ++
        ", Row delimiter: " ++ string_2_asc ctx.opts.row_delimiter ++
        ", Row: '",
      "', File: ",
      ". Consider setting 'fill_mismatch_column_with' = 'null'", rfl⟩
  · exact parseCsvGo_record_fatal ctx capacity rec rest numRows cols cols es es
      _ h hmain
  · intro numRows' cols' es' rec' hrec' hge
    have hc2' : ¬ (ctx.scan_type = TFileScanType.FILES_QUERY ∧
        (rowFields ctx rec').length < ctx.num_fields_in_csv ∧
        ctx.flexible_column_mapping = false) := by
      rintro ⟨-, hlt', -⟩; omega
    by_cases hu : ctx.validate_utf8 rec' = false
    · rw [processRecord_utf8_fail ctx numRows' cols' es' rec' hrec' (hc1 rec')
        hc2' hu]
      rfl
    · rw [processRecord_convert ctx numRows' cols' es' rec' hrec' (hc1 rec')
        hc2' hu]
      rcases hcv : convertFields ctx.canConvert (!ctx.strict_mode)
          (rowFields ctx rec') (enumSlots ctx) cols' with ⟨a, b⟩
      cases b <;> rfl
  · intro lenient fields cols1 hge
    refine convertFields_take_fields ctx.canConvert lenient fields
      ctx.num_fields_in_csv hge (enumSlots ctx) cols1 ?_
    intro p hp
    have h1 := enumFromIdx_lt 0 (ctx.slots.take ctx.num_fields_in_csv) p hp
    have h2 : (ctx.slots.take ctx.num_fields_in_csv).length ≤
        ctx.num_fields_in_csv := by
      rw [List.length_take]; exact Nat.min_le_left _ _
    omega

/-- Witness for C2: schema width 2, Query context, row `"a"` (one field). -/
theorem query_missing_columns_fails_scan_witness :
    processRecord (mkCtx TFileScanType.FILES_QUERY true vuAll ccAll) 0 [[], []]
        ⟨0, [], []⟩ [97] =
      ([[], []], ⟨0, [], []⟩,
        RowStep.fatal (Status.dataQualityError
          (make_column_count_not_matched_error_message_for_query 2 1
            ⟨[44], [10], 0, false, 0, 0⟩ (recToString [97]) "data.csv"))) :=
  (query_missing_columns_fails_scan
    (mkCtx TFileScanType.FILES_QUERY true vuAll ccAll) 0 [[], []] ⟨0, [], []⟩
    [97] (by decide) (by decide) (by decide) (by decide)).1

/-- **C5**: a row that passes the shape checks but is not valid UTF-8 is
discarded with the fixed message "Invalid UTF-8 row"; `num_rows_filtered`
always increments, the detailed message is emitted only while the incremented
counter is at or below the cap of 50 (beyond it counting continues silently),
and the loop continues without incrementing the converted-row count. -/
theorem invalid_utf8_row_discarded (ctx : ScanCtx) (numRows : Nat)
    (cols : List (List Cell)) (es : ErrState) (rec : List Nat)
    (hrec : ¬ rec = [])
    (hc1 : ¬ (((ctx.scan_type = TFileScanType.LOAD ∧
        (rowFields ctx rec).length ≠ ctx.num_fields_in_csv) ∨
      (ctx.scan_type = TFileScanType.FILES_INSERT ∧
        (rowFields ctx rec).length < ctx.num_fields_in_csv)) ∧
      ctx.flexible_column_mapping = false))
    (hc2 : ¬ (ctx.scan_type = TFileScanType.FILES_QUERY ∧
      (rowFields ctx rec).length < ctx.num_fields_in_csv ∧
      ctx.flexible_column_mapping = false))
    (hutf : ctx.validate_utf8 rec = false) :
    processRecord ctx numRows cols es rec =
      (cols, bumpError ctx.enable_log_rejected es rec "Invalid UTF-8 row",
        RowStep.filtered) ∧
    (bumpError ctx.enable_log_rejected es rec "Invalid UTF-8 row"
      ).num_rows_filtered = es.num_rows_filtered + 1 ∧
    (es.num_rows_filtered + 1 ≤ REPORT_ERROR_MAX_NUMBER →
      (bumpError ctx.enable_log_rejected es rec "Invalid UTF-8 row").errors =
        es.errors ++ [(rec, "Invalid UTF-8 row")]) ∧
    (REPORT_ERROR_MAX_NUMBER < es.num_rows_filtered + 1 →
      (bumpError ctx.enable_log_rejected es rec "Invalid UTF-8 row").errors =
        es.errors) ∧
    (∀ (capacity : Nat) (rest : List ReadEvent), numRows < capacity →
      parseCsvGo ctx capacity (ReadEvent.record rec :: rest) numRows cols es =
        parseCsvGo ctx capacity rest numRows cols
          (bumpError ctx.enable_log_rejected es rec "Invalid UTF-8 row")) := by
  refine ⟨processRecord_utf8_fail ctx numRows cols es rec hrec hc1 hc2 hutf,
    rfl, fun h => ?_, fun h => ?_, fun capacity rest h => ?_⟩
  · simp [bumpError, REPORT_ERROR_MAX_NUMBER] at h ⊢
    omega
  · simp [bumpError, REPORT_ERROR_MAX_NUMBER] at h ⊢
    omega
  · exact parseCsvGo_record_filtered ctx capacity rec rest numRows cols cols es
      _ h (processRecord_utf8_fail ctx numRows cols es rec hrec hc1 hc2 hutf)

/-- Witness for C5: schema width 2, Load context, row `"a,<0xFF>"` (two
fields, invalid UTF-8 byte `255`). -/
theorem invalid_utf8_row_discarded_witness :
    processRecord (mkCtx TFileScanType.LOAD true vuNo255 ccAll) 0 [[], []]
        ⟨0, [], []⟩ [97, 44, 255] =
      ([[], []], bumpError false ⟨0, [], []⟩ [97, 44, 255] "Invalid UTF-8 row",
        RowStep.filtered) :=
  (invalid_utf8_row_discarded (mkCtx TFileScanType.LOAD true vuNo255 ccAll) 0
    [[], []] ⟨0, [], []⟩ [97, 44, 255] (by decide) (by decide) (by decide)
    (by decide)).1

/-- **C3**: when conversion of a retained field fails, in strict mode the row
is discarded and the destination chunk is truncated back to the row count it
had before the row started (no partially appended values remain), with a
message naming the field position, declared type, raw value length and raw
value content; in lenient mode the converter instead appends one null and the
row is retained. -/
theorem strict_conversion_failure_rolls_back (ctx : ScanCtx) (numRows : Nat)
    (cols : List (List Cell)) (es : ErrState) (rec : List Nat)
    (cols1 : List (List Cell)) (e : ConvErr)
    (hrec : ¬ rec = [])
    (hc1 : ¬ (((ctx.scan_type = TFileScanType.LOAD ∧
        (rowFields ctx rec).length ≠ ctx.num_fields_in_csv) ∨
      (ctx.scan_type = TFileScanType.FILES_INSERT ∧
        (rowFields ctx rec).length < ctx.num_fields_in_csv)) ∧
      ctx.flexible_column_mapping = false))
    (hc2 : ¬ (ctx.scan_type = TFileScanType.FILES_QUERY ∧
      (rowFields ctx rec).length < ctx.num_fields_in_csv ∧
      ctx.flexible_column_mapping = false))
    (hutf : ¬ ctx.validate_utf8 rec = false)
    (hlen : ∀ c ∈ cols, c.length = numRows)
    (hconv : convertFields ctx.canConvert false (rowFields ctx rec)
      (enumSlots ctx) cols = (cols1, some e)) :
    (ctx.strict_mode = true →
      processRecord ctx numRows cols es rec =
        (cols,
          bumpError ctx.enable_log_rejected es rec
            (make_value_type_not_matched_error_message e.pos e.field e.slot),
          RowStep.filtered)) ∧
    (∃ s1 s2 s3 s4 : String,
      make_value_type_not_matched_error_message e.pos e.field e.slot =
        s1 ++ (toString e.pos ++ (s2 ++ (e.slot.type.debug_string ++
          (s3 ++ (toString e.field.length ++
            (s4 ++ recToString e.field))))))) ∧
    (∀ (t : TypeDesc) (f : List Nat) (c : List Cell),
      ctx.canConvert t f = false →
      read_string_for_adaptive_null_column ctx.canConvert true t f c =
        (c ++ [Cell.null], true)) ∧
    ((convertFields ctx.canConvert true (rowFields ctx rec) (enumSlots ctx)
      cols).2 = none) ∧
    (ctx.strict_mode = false →
      (processRecord ctx numRows cols es rec).2.2 = RowStep.converted) := by
  have hroll : cols1.map (fun c => c.take numRows) = cols := by
    have h := convertFields_take ctx.canConvert false (rowFields ctx rec)
      numRows (enumSlots ctx) cols hlen
    rw [hconv] at h
    exact h
  refine ⟨fun hs => ?_, ?_, fun t f c hcc => ?_, ?_, fun hs => ?_⟩
  · rw [processRecord_convert ctx numRows cols es rec hrec hc1 hc2 hutf]
    simp only [hs, Bool.not_true]
    rw [hconv]
    show (cols1.map (fun c => c.take numRows),
      bumpError ctx.enable_log_rejected es rec
        (make_value_type_not_matched_error_message e.pos e.field e.slot),
      RowStep.filtered) = _
    rw [hroll]
  · exact ⟨"The field (name = " ++ e.slot.col_name ++ ", pos = ",
      ") is out of range. Type: ", ", Value length: ", ", Value: ", rfl⟩
  · unfold read_string_for_adaptive_null_column
    rw [hcc]
    simp
  · exact convertFields_lenient_none ctx.canConvert (rowFields ctx rec)
      (enumSlots ctx) cols
  · rw [processRecord_convert ctx numRows cols es rec hrec hc1 hc2 hutf]
    simp only [hs, Bool.not_false]
    rcases hcv : convertFields ctx.canConvert true (rowFields ctx rec)
        (enumSlots ctx) cols with ⟨a, b⟩
    have hb : b = none := by
      have h := convertFields_lenient_none ctx.canConvert (rowFields ctx rec)
        (enumSlots ctx) cols
      rw [hcv] at h
      exact h
    subst hb
    rfl

/-- Witness for C3: strict mode discards row `"a,b"` whose second field fails
conversion, leaving the chunk columns untouched; lenient mode retains it. -/
theorem strict_conversion_failure_rolls_back_witness :
    processRecord (mkCtx TFileScanType.LOAD true vuAll ccNotB) 0 [[], []]
        ⟨0, [], []⟩ [97, 44, 98] =
      ([[], []],
        bumpError false ⟨0, [], []⟩ [97, 44, 98]
          (make_value_type_not_matched_error_message 1 [98]
            ⟨1, "c1", TypeDesc.bigint⟩),
        RowStep.filtered) ∧
    (processRecord (mkCtx TFileScanType.LOAD false vuAll ccNotB) 0 [[], []]
        ⟨0, [], []⟩ [97, 44, 98]).2.2 = RowStep.converted :=
  ⟨(strict_conversion_failure_rolls_back
      (mkCtx TFileScanType.LOAD true vuAll ccNotB) 0 [[], []] ⟨0, [], []⟩
      [97, 44, 98] [[Cell.value [97]], []] ⟨1, ⟨1, "c1", TypeDesc.bigint⟩, [98]⟩
      (by decide) (by decide) (by decide) (by decide) (by decide)
      (by decide)).1 rfl,
    (strict_conversion_failure_rolls_back
      (mkCtx TFileScanType.LOAD false vuAll ccNotB) 0 [[], []] ⟨0, [], []⟩
      [97, 44, 98] [[Cell.value [97]], []] ⟨1, ⟨1, "c1", TypeDesc.bigint⟩, [98]⟩
      (by decide) (by decide) (by decide) (by decide) (by decide)
      (by decide)).2.2.2.2 rfl⟩

/-- **C6**: a row reaching conversion with fewer fields than the schema width
appends exactly one default/null value per retained trailing slot (those at
positions at or past the row's field count) and conversion succeeds for those
positions: a successful run over the leading slots composes with one default
append per retained trailing slot. -/
theorem missing_trailing_fields_append_defaults
    (cc : TypeDesc → List Nat → Bool) (lenient : Bool)
    (fields : List (List Nat)) (l1 l2 : List (Nat × Option SlotDescriptor))
    (c1 c2 c1' : List (List Cell))
    (h2 : ∀ p ∈ l2, fields.length ≤ p.1)
    (hc1 : c1.length = retainedCount l1)
    (hc2 : c2.length = retainedCount l2)
    (h1 : convertFields cc lenient fields l1 c1 = (c1', none)) :
    convertFields cc lenient fields (l1 ++ l2) (c1 ++ c2) =
      (c1' ++ c2.map (fun c => c ++ [Cell.defaultVal]), none) := by
  rw [convertFields_append cc lenient fields l2 c2 l1 c1 c1' hc1 h1,
    convertFields_defaults cc lenient fields l2 c2 h2 hc2]

/-- Witness for C6: one-field row against a three-slot schema whose middle
trailing slot is retained and last one ignored: the retained trailing slot
gets exactly one default append and conversion succeeds. -/
theorem missing_trailing_fields_append_defaults_witness :
    convertFields ccAll false [[97]]
        ([(0, some ⟨0, "c0", TypeDesc.bigint⟩)] ++
          [(1, some ⟨1, "c1", TypeDesc.bigint⟩), (2, none)])
        ([[]] ++ [[]]) =
      ([[Cell.value [97]]] ++ [[] ++ [Cell.defaultVal]], none) :=
  missing_trailing_fields_append_defaults ccAll false [[97]]
    [(0, some ⟨0, "c0", TypeDesc.bigint⟩)]
    [(1, some ⟨1, "c1", TypeDesc.bigint⟩), (2, none)]
    [[]] [[]] [[Cell.value [97]]]
    (by decide) (by decide) (by decide) (by decide)

/-- The only fatal outcome `processRecord` produces is the Query-context
`DataQualityError`. -/
theorem processRecord_fatal_is_dq (ctx : ScanCtx) (numRows : Nat)
    (cols : List (List Cell)) (es : ErrState) (rec : List Nat)
    (c : List (List Cell)) (e : ErrState) (st : Status)
    (h : processRecord ctx numRows cols es rec = (c, e, RowStep.fatal st)) :
    ∃ m, st = Status.dataQualityError m := by
  unfold processRecord at h
  split at h
  · simp at h
  · split at h
    · simp at h
    · split at h
      · simp only [Prod.mk.injEq] at h
        obtain ⟨-, -, hf⟩ := h
        injection hf with hf
        exact ⟨_, hf.symm⟩
      · split at h
        · simp at h
        · split at h
          · simp at h
          · simp at h

/-- An early return of the parse loop never carries the OK status when the
event stream is well formed (no `err` event holds `Status.ok`). -/
theorem parseCsvGo_some_not_ok (ctx : ScanCtx) (capacity : Nat) :
    ∀ (evs : List ReadEvent) (numRows : Nat) (cols : List (List Cell))
      (es : ErrState) (c : List (List Cell)) (e : ErrState) (n : Nat),
    (∀ ev ∈ evs, ev.isOkStatus = false) →
    parseCsvGo ctx capacity evs numRows cols es = (c, e, n, some Status.ok) →
    False := by
  intro evs
  induction evs with
  | nil =>
    intro numRows cols es c e n _ hp
    rw [parseCsvGo_nil] at hp
    simp at hp
  | cons ev rest ih =>
    intro numRows cols es c e n hwf hp
    by_cases hcap : capacity ≤ numRows
    · rw [parseCsvGo_stop ctx capacity _ numRows cols es hcap] at hp
      simp at hp
    · cases ev with
      | err st =>
        rw [parseCsvGo_err ctx capacity st rest numRows cols es
          (Nat.lt_of_not_le hcap)] at hp
        simp only [Prod.mk.injEq, Option.some.injEq] at hp
        obtain ⟨-, -, -, hst⟩ := hp
        have hh := hwf (ReadEvent.err st) (List.mem_cons_self _ _)
        rw [hst] at hh
        simp [ReadEvent.isOkStatus] at hh
      | record r =>
        rw [parseCsvGo_record ctx capacity r rest numRows cols es
          (Nat.lt_of_not_le hcap)] at hp
        rcases hpr : processRecord ctx numRows cols es r with ⟨c1, e1, step⟩
        rw [hpr] at hp
        cases step with
        | skipped =>
          exact ih numRows c1 e1 c e n
            (fun x hx => hwf x (List.mem_cons_of_mem _ hx)) hp
        | filtered =>
          exact ih numRows c1 e1 c e n
            (fun x hx => hwf x (List.mem_cons_of_mem _ hx)) hp
        | fatal st =>
          simp only [Prod.mk.injEq, Option.some.injEq] at hp
          obtain ⟨-, -, -, hst⟩ := hp
          obtain ⟨m, hm⟩ := processRecord_fatal_is_dq ctx numRows cols es r
            c1 e1 st hpr
          rw [hst] at hm
          cases hm
        | converted =>
          exact ih (numRows + 1) c1 e1 c e n
            (fun x hx => hwf x (List.mem_cons_of_mem _ hx)) hp

/-- A parse pass that ends with the OK status has committed at least one row
(the final `chunk->num_rows() > 0 ? OK : EndOfFile` translation). -/
theorem parseCsv_ok_pos (ctx : ScanCtx) (capacity : Nat)
    (evs : List ReadEvent) (cols : List (List Cell)) (es : ErrState)
    (c : List (List Cell)) (e : ErrState) (n : Nat)
    (hwf : ∀ ev ∈ evs, ev.isOkStatus = false)
    (hp : parseCsv ctx capacity evs cols es = (c, e, n, Status.ok)) :
    0 < n := by
  unfold parseCsv at hp
  rcases hgo : parseCsvGo ctx capacity evs 0 cols es with ⟨c0, e0, n0, st?⟩
  rw [hgo] at hp
  cases st? with
  | none =>
    by_cases hn : 0 < n0
    · simp only [if_pos hn, Prod.mk.injEq] at hp
      obtain ⟨-, -, hn0, -⟩ := hp
      omega
    · simp only [if_neg hn, Prod.mk.injEq] at hp
      obtain ⟨-, -, -, hbad⟩ := hp
      cases hbad
  | some st =>
    simp only [Prod.mk.injEq] at hp
    obtain ⟨-, -, -, hst⟩ := hp
    subst hst
    exact absurd hgo (fun hg =>
      parseCsvGo_some_not_ok ctx capacity evs 0 cols es c0 e0 n0 hwf hg)

/-- A parse pass that exits its loop normally with zero committed rows
returns `EndOfFile("")` rather than an empty success. -/
theorem parseCsv_zero_rows_eof (ctx : ScanCtx) (capacity : Nat)
    (evs : List ReadEvent) (cols : List (List Cell)) (es : ErrState)
    (c : List (List Cell)) (e : ErrState)
    (hgo : parseCsvGo ctx capacity evs 0 cols es = (c, e, 0, none)) :
    parseCsv ctx capacity evs cols es = (c, e, 0, Status.endOfFile "") := by
  unfold parseCsv
  rw [hgo]
  rfl

/-- Unfolding equation for `getNext` on a non-empty file list. -/
theorem getNext_cons (ctx : ScanCtx) (capacity : Nat) (f : List ReadEvent)
    (rest : List (List ReadEvent)) (es : ErrState) :
    getNext ctx capacity (f :: rest) es =
      (match parseCsv ctx capacity f (initCols ctx) es with
      | (cols, es1, n, Status.ok) => Except.ok (cols, n, es1)
      | (_, es1, _, Status.endOfFile _) => getNext ctx capacity rest es1
      | (cols, es1, n, Status.timeOut m) =>
        if n = 0 then Except.error (Status.timeOut m)
        else Except.ok (cols, n, es1)
      | (_, _, _, st) => Except.error st) := rfl

/-- **C7**: when the byte source times out during a `get_next` pass, the
timeout is propagated to the caller if no row of the current batch was
produced yet, while a partially filled batch is returned as a success (the
timeout then surfaces on a later call over the same source). -/
theorem timeout_propagation_respects_partial_batch (ctx : ScanCtx)
    (capacity : Nat) (f : List ReadEvent) (rest : List (List ReadEvent))
    (es : ErrState) (cols : List (List Cell)) (es' : ErrState) (n : Nat)
    (m : String)
    (hp : parseCsv ctx capacity f (initCols ctx) es =
      (cols, es', n, Status.timeOut m)) :
    (n = 0 →
      getNext ctx capacity (f :: rest) es =
        Except.error (Status.timeOut m)) ∧
    (0 < n →
      getNext ctx capacity (f :: rest) es = Except.ok (cols, n, es')) := by
  rw [getNext_cons, hp]
  constructor <;> intro hn
  · show (if n = 0 then Except.error (Status.timeOut m)
      else Except.ok (cols, n, es')) = _
    rw [if_pos hn]
  · show (if n = 0 then Except.error (Status.timeOut m)
      else Except.ok (cols, n, es')) = _
    rw [if_neg (by omega)]

/-- Witness for C7: a timeout before any record propagates the timeout; a
timeout after one converted record returns the one-row batch as a success. -/
theorem timeout_propagation_respects_partial_batch_witness :
    getNext (mkCtx TFileScanType.LOAD true vuAll ccAll) 4096
        [[ReadEvent.err (Status.timeOut "t")]] ⟨0, [], []⟩ =
      Except.error (Status.timeOut "t") ∧
    getNext (mkCtx TFileScanType.LOAD true vuAll ccAll) 4096
        [[ReadEvent.record [97, 44, 98],
          ReadEvent.err (Status.timeOut "t")]] ⟨0, [], []⟩ =
      Except.ok ([[Cell.value [97]], [Cell.value [98]]], 1, ⟨0, [], []⟩) :=
  ⟨(timeout_propagation_respects_partial_batch
      (mkCtx TFileScanType.LOAD true vuAll ccAll) 4096
      [ReadEvent.err (Status.timeOut "t")] [] ⟨0, [], []⟩
      (initCols (mkCtx TFileScanType.LOAD true vuAll ccAll)) ⟨0, [], []⟩ 0 "t"
      (by decide)).1 rfl,
    (timeout_propagation_respects_partial_batch
      (mkCtx TFileScanType.LOAD true vuAll ccAll) 4096
      [ReadEvent.record [97, 44, 98], ReadEvent.err (Status.timeOut "t")] []
      ⟨0, [], []⟩ [[Cell.value [97]], [Cell.value [98]]] ⟨0, [], []⟩ 1 "t"
      (by decide)).2 (by decide)⟩

/-- **C10**: `get_next` never returns a chunk with zero rows: a parse pass
that retains zero rows and exits normally yields `EndOfFile("")` instead of
an empty success, and the `get_next` loop only succeeds with a positive
committed row count. -/
theorem get_next_never_returns_empty_chunk (ctx : ScanCtx) (capacity : Nat) :
    (∀ (evs : List ReadEvent) (cols : List (List Cell)) (es : ErrState)
        (c : List (List Cell)) (e : ErrState),
      parseCsvGo ctx capacity evs 0 cols es = (c, e, 0, none) →
      parseCsv ctx capacity evs cols es = (c, e, 0, Status.endOfFile "")) ∧
    (∀ (files : List (List ReadEvent)) (es : ErrState)
        (cols : List (List Cell)) (n : Nat) (es' : ErrState),
      (∀ f ∈ files, ∀ ev ∈ f, ReadEvent.isOkStatus ev = false) →
      getNext ctx capacity files es = Except.ok (cols, n, es') → 0 < n) := by
  refine ⟨fun evs cols es c e hgo =>
    parseCsv_zero_rows_eof ctx capacity evs cols es c e hgo, ?_⟩
  intro files
  induction files with
  | nil =>
    intro es cols n es' _ h
    simp [getNext] at h
  | cons f rest ih =>
    intro es cols n es' hwf h
    rw [getNext_cons] at h
    rcases hp : parseCsv ctx capacity f (initCols ctx) es with ⟨c0, e0, n0, st⟩
    rw [hp] at h
    cases st with
    | ok =>
      have h' : Except.ok (ε := Status) (c0, n0, e0) =
          Except.ok (cols, n, es') := h
      simp only [Except.ok.injEq, Prod.mk.injEq] at h'
      obtain ⟨-, h2, -⟩ := h'
      have hpos := parseCsv_ok_pos ctx capacity f (initCols ctx) es c0 e0 n0
        (hwf f (List.mem_cons_self _ _)) hp
      omega
    | endOfFile m =>
      exact ih e0 cols n es' (fun g hg => hwf g (List.mem_cons_of_mem _ hg)) h
    | timeOut m =>
      have h' : (if n0 = 0 then Except.error (Status.timeOut m)
          else Except.ok (c0, n0, e0)) = Except.ok (cols, n, es') := h
      by_cases hn : n0 = 0
      · rw [if_pos hn] at h'
        cases h'
      · rw [if_neg hn] at h'
        simp only [Except.ok.injEq, Prod.mk.injEq] at h'
        obtain ⟨-, h2, -⟩ := h'
        omega
    | dataQualityError m => cases h
    | internalError m => cases h
    | ioError m => cases h

/-- Witness for C10: a single one-record file yields a one-row chunk, and an
empty event stream parses to `EndOfFile("")`. -/
theorem get_next_never_returns_empty_chunk_witness :
    parseCsv (mkCtx TFileScanType.LOAD true vuAll ccAll) 4096 []
        [[], []] ⟨0, [], []⟩ =
      ([[], []], ⟨0, [], []⟩, 0, Status.endOfFile "") ∧ (0 : Nat) < 1 :=
  ⟨(get_next_never_returns_empty_chunk
      (mkCtx TFileScanType.LOAD true vuAll ccAll) 4096).1 [] [[], []]
      ⟨0, [], []⟩ [[], []] ⟨0, [], []⟩ (by decide),
    (get_next_never_returns_empty_chunk
      (mkCtx TFileScanType.LOAD true vuAll ccAll) 4096).2
      [[ReadEvent.record [97, 44, 98]]] ⟨0, [], []⟩
      [[Cell.value [97]], [Cell.value [98]]] 1 ⟨0, [], []⟩ (by decide) rfl⟩

theorem leadsWith_self_append (p t : List Nat) :
    leadsWith p (p ++ t) = true := by
  induction p with
  | nil => rfl
  | cons a as ih => simp [leadsWith, ih]

theorem hasEnding_append_self (c delim : List Nat) :
    hasEnding delim (c ++ delim) = true := by
  unfold hasEnding
  rw [List.reverse_append]
  exact leadsWith_self_append _ _

/-- **C4**: on a zero-byte read at source exhaustion, `_fill_buffer`
synthesizes one row-delimiter copy when the buffered bytes do not already end
with it and at least `row_delimiter.length` bytes of free space remain,
fails with the line-length-exceeds-limit `InternalError` when there is no
room, and returns `EndOfFile` when the buffer held zero available bytes;
consequently a file whose content lacks the trailing row delimiter fills to
the same buffer as the otherwise-identical file that has it. -/
theorem fill_buffer_eof_synthesis (delim : List Nat) (fn : String) :
    (∀ (cap pos : Nat) (data : List Nat),
      (CSVBuffer.avail ⟨cap, pos, data⟩ < delim.length ∨
        hasEnding delim (CSVBuffer.availBytes ⟨cap, pos, data⟩) = false) →
      delim.length ≤ CSVBuffer.free_space ⟨cap, pos, data⟩ →
      ¬ CSVBuffer.avail ⟨cap, pos, data⟩ = 0 →
      fill_buffer delim fn ⟨cap, pos, data⟩ (Except.ok []) =
        Except.ok ⟨cap, pos, data ++ delim⟩) ∧
    (∀ (cap pos : Nat) (data : List Nat),
      (CSVBuffer.avail ⟨cap, pos, data⟩ < delim.length ∨
        hasEnding delim (CSVBuffer.availBytes ⟨cap, pos, data⟩) = false) →
      CSVBuffer.free_space ⟨cap, pos, data⟩ < delim.length →
      fill_buffer delim fn ⟨cap, pos, data⟩ (Except.ok []) =
        Except.error (Status.internalError
          ("CSV line length exceed limit " ++ toString cap))) ∧
    (∀ (cap pos : Nat) (data : List Nat),
      CSVBuffer.avail ⟨cap, pos, data⟩ = 0 →
      delim.length ≤ CSVBuffer.free_space ⟨cap, pos, data⟩ →
      fill_buffer delim fn ⟨cap, pos, data⟩ (Except.ok []) =
        Except.error (Status.endOfFile fn)) ∧
    (∀ (cap : Nat) (c : List Nat),
      ¬ delim = [] → ¬ c = [] → hasEnding delim c = false →
      c.length + delim.length ≤ cap →
      fill_buffer delim fn ⟨cap, 0, c⟩ (Except.ok []) =
          Except.ok ⟨cap, 0, c ++ delim⟩ ∧
        fill_buffer delim fn ⟨cap, 0, c ++ delim⟩ (Except.ok []) =
          Except.ok ⟨cap, 0, c ++ delim⟩) := by
  have hfill : ∀ (cap pos : Nat) (data : List Nat),
      fill_buffer delim fn ⟨cap, pos, data⟩ (Except.ok []) =
        (match (if CSVBuffer.avail ⟨cap, pos, data⟩ < delim.length ∨
            hasEnding delim (CSVBuffer.availBytes ⟨cap, pos, data⟩) = false
          then
            (if CSVBuffer.free_space ⟨cap, pos, data⟩ < delim.length then
              Except.error (Status.internalError
                ("CSV line length exceed limit " ++ toString cap))
            else Except.ok (⟨cap, pos, data ++ delim⟩ : CSVBuffer))
          else Except.ok (⟨cap, pos, data⟩ : CSVBuffer)) with
        | Except.error st => Except.error st
        | Except.ok b2 =>
          if CSVBuffer.avail ⟨cap, pos, data⟩ = 0 then
            Except.error (Status.endOfFile fn)
          else Except.ok b2) := by
    intro cap pos data
    rfl
  refine ⟨fun cap pos data hne hroom hn0 => ?_,
    fun cap pos data hne hnoroom => ?_,
    fun cap pos data hn0 hroom => ?_,
    fun cap c hdelim hc hend hcap => ?_⟩
  · rw [hfill, if_pos hne, if_neg (Nat.not_lt.mpr hroom)]
    show (if CSVBuffer.avail ⟨cap, pos, data⟩ = 0 then
        Except.error (Status.endOfFile fn)
      else Except.ok (⟨cap, pos, data ++ delim⟩ : CSVBuffer)) = _
    rw [if_neg hn0]
  · rw [hfill, if_pos hne, if_pos hnoroom]
  · by_cases hne : CSVBuffer.avail ⟨cap, pos, data⟩ < delim.length ∨
        hasEnding delim (CSVBuffer.availBytes ⟨cap, pos, data⟩) = false
    · rw [hfill, if_pos hne, if_neg (Nat.not_lt.mpr hroom)]
      show (if CSVBuffer.avail ⟨cap, pos, data⟩ = 0 then
          Except.error (Status.endOfFile fn)
        else Except.ok (⟨cap, pos, data ++ delim⟩ : CSVBuffer)) = _
      rw [if_pos hn0]
    · rw [hfill, if_neg hne]
      show (if CSVBuffer.avail ⟨cap, pos, data⟩ = 0 then
          Except.error (Status.endOfFile fn)
        else Except.ok (⟨cap, pos, data⟩ : CSVBuffer)) = _
      rw [if_pos hn0]
  · have hlen0 : 0 < delim.length := List.length_pos.mpr hdelim
    have hclen : 0 < c.length := List.length_pos.mpr hc
    constructor
    · rw [hfill]
      have hne : CSVBuffer.avail ⟨cap, 0, c⟩ < delim.length ∨
          hasEnding delim (CSVBuffer.availBytes ⟨cap, 0, c⟩) = false := by
        right
        simpa [CSVBuffer.availBytes] using hend
      have hroom : ¬ CSVBuffer.free_space ⟨cap, 0, c⟩ < delim.length := by
        simp only [CSVBuffer.free_space]
        omega
      have hn0 : ¬ CSVBuffer.avail ⟨cap, 0, c⟩ = 0 := by
        simp only [CSVBuffer.avail]
        omega
      rw [if_pos hne, if_neg hroom]
      show (if CSVBuffer.avail ⟨cap, 0, c⟩ = 0 then
          Except.error (Status.endOfFile fn)
        else Except.ok (⟨cap, 0, c ++ delim⟩ : CSVBuffer)) = _
      rw [if_neg hn0]
    · rw [hfill]
      have hne : ¬ (CSVBuffer.avail ⟨cap, 0, c ++ delim⟩ < delim.length ∨
          hasEnding delim (CSVBuffer.availBytes ⟨cap, 0, c ++ delim⟩) =
            false) := by
        push_neg
        constructor
        · simp only [CSVBuffer.avail, List.length_append]
          omega
        · simp only [CSVBuffer.availBytes, List.drop_zero]
          rw [hasEnding_append_self]
          simp
      have hn0 : ¬ CSVBuffer.avail ⟨cap, 0, c ++ delim⟩ = 0 := by
        simp only [CSVBuffer.avail, List.length_append]
        omega
      rw [if_neg hne]
      show (if CSVBuffer.avail ⟨cap, 0, c ++ delim⟩ = 0 then
          Except.error (Status.endOfFile fn)
        else Except.ok (⟨cap, 0, c ++ delim⟩ : CSVBuffer)) = _
      rw [if_neg hn0]

/-- Witness for C4: buffer holding `"ab"` (no trailing newline) and buffer
holding `"ab\n"` both fill to `"ab\n"` at end of file; an empty buffer
reports `EndOfFile`; a full buffer reports the line-length error. -/
theorem fill_buffer_eof_synthesis_witness :
    fill_buffer [10] "f.csv" ⟨16, 0, [97, 98]⟩ (Except.ok []) =
        Except.ok ⟨16, 0, [97, 98, 10]⟩ ∧
    fill_buffer [10] "f.csv" ⟨16, 0, [97, 98, 10]⟩ (Except.ok []) =
        Except.ok ⟨16, 0, [97, 98, 10]⟩ ∧
    fill_buffer [10] "f.csv" ⟨16, 0, []⟩ (Except.ok []) =
        Except.error (Status.endOfFile "f.csv") ∧
    fill_buffer [10] "f.csv" ⟨2, 0, [97, 98]⟩ (Except.ok []) =
        Except.error (Status.internalError
          ("CSV line length exceed limit " ++ toString 2)) := by
  have h := fill_buffer_eof_synthesis [10] "f.csv"
  have hd := h.2.2.2 16 [97, 98] (by decide) (by decide) (by decide)
    (by decide)
  exact ⟨hd.1, hd.2, h.2.2.1 16 0 [] (by decide) (by decide),
    h.2.1 2 0 [97, 98] (by decide) (by decide)⟩

theorem skipHeaderLoop_short (k : Nat) :
    ∀ (rows : List (List Nat)) (n : Nat), rows.length < n → n ≤ k →
    skipHeaderLoop k n rows =
      Except.error (Status.endOfFile
        (skipHeaderMsg k (k - n + rows.length))) := by
  intro rows
  induction rows with
  | nil =>
    intro n h _
    cases n with
    | zero => omega
    | succ m => rfl
  | cons r rest ih =>
    intro n h hk
    cases n with
    | zero => omega
    | succ m =>
      have hlen : (r :: rest).length = rest.length + 1 := rfl
      show skipHeaderLoop k m rest = _
      rw [ih m (by rw [hlen] at h; omega) (by omega)]
      rw [show k - m + rest.length = k - (m + 1) + (r :: rest).length by
        rw [hlen]; omega]

theorem skipHeaderLoop_exact (k : Nat) :
    ∀ (rows : List (List Nat)) (n : Nat), rows.length = n →
    skipHeaderLoop k n rows = Except.ok [] := by
  intro rows
  induction rows with
  | nil =>
    intro n h
    rw [← h]
    rfl
  | cons r rest ih =>
    intro n h
    cases n with
    | zero => simp at h
    | succ m =>
      show skipHeaderLoop k m rest = _
      exact ih m (by simpa using h)

/-- Counterexample to C8 as stated: with `skip_header = 1` on a file of
exactly one row, all header rows are read successfully and reader
initialization returns `OK`, not an end-of-file with a descriptive message. -/
theorem skip_header_exact_rows_init_ok :
    initReaderSkipHeader 1 [[97]] = Status.ok := rfl

/-- **C8** (amended): `skip_header = k` on a file with fewer than `k` rows
makes reader initialization return `EndOfFile` with the descriptive message
stating `k` and the number of rows actually present; on a file with exactly
`k` rows the skip loop consumes them all and initialization succeeds (the
end-of-file the caller then sees carries no such message). -/
theorem skip_header_row_exhaustion (k : Nat) (rows : List (List Nat)) :
    (rows.length < k →
      initReaderSkipHeader k rows =
        Status.endOfFile (skipHeaderMsg k rows.length)) ∧
    (rows.length = k → initReaderSkipHeader k rows = Status.ok) := by
  constructor
  · intro h
    unfold initReaderSkipHeader
    rw [skipHeaderLoop_short k rows k h (Nat.le_refl k),
      show k - k + rows.length = rows.length by omega]
  · intro h
    unfold initReaderSkipHeader
    rw [skipHeaderLoop_exact k rows k h]

/-- Witness for C8 (amended): `skip_header = 2` on a one-row file produces
the descriptive end-of-file; `skip_header = 1` on the same file succeeds. -/
theorem skip_header_row_exhaustion_witness :
    initReaderSkipHeader 2 [[97]] = Status.endOfFile (skipHeaderMsg 2 1) ∧
    initReaderSkipHeader 1 [[97]] = Status.ok :=
  ⟨(skip_header_row_exhaustion 2 [[97]]).1 (by decide),
    (skip_header_row_exhaustion 1 [[97]]).2 (by decide)⟩

theorem mkSchemaFields_length (pInt pFloat pBool : List Nat → Bool) :
    ∀ (l : List (List Nat)) (i : Nat),
    (mkSchemaFields pInt pFloat pBool i l).length = l.length := by
  intro l
  induction l with
  | nil => intro i; rfl
  | cons f rest ih => intro i; simp [mkSchemaFields, ih]

theorem mkSchemaFields_get (pInt pFloat pBool : List Nat → Bool) :
    ∀ (l : List (List Nat)) (i k : Nat) (hk : k < l.length)
      (hk2 : k < (mkSchemaFields pInt pFloat pBool i l).length),
    (mkSchemaFields pInt pFloat pBool i l).get ⟨k, hk2⟩ =
      ⟨i + k, "$" ++ toString (i + k + 1),
        get_type_desc pInt pFloat pBool (l.get ⟨k, hk⟩)⟩ := by
  intro l
  induction l with
  | nil => intro i k hk _; simp at hk
  | cons f rest ih =>
    intro i k hk hk2
    cases k with
    | zero => simp [mkSchemaFields]
    | succ m =>
      have h1 : m < rest.length := by simpa using hk
      have h2 : m < (mkSchemaFields pInt pFloat pBool (i + 1) rest).length := by
        rw [mkSchemaFields_length]; exact h1
      show (mkSchemaFields pInt pFloat pBool (i + 1) rest).get ⟨m, h2⟩ = _
      rw [ih (i + 1) m h1 h2]
      have e1 : i + 1 + m = i + (m + 1) := by omega
      simp [e1]

theorem getSchemaGo_filter (pInt pFloat pBool : List Nat → Bool)
    (opts : CSVParseOptions) :
    ∀ (rows : List (List Nat)) (n : Nat),
    getSchemaGo pInt pFloat pBool opts n rows =
      ((rows.filter (fun r => !r.isEmpty)).take n).map
        (mkRowSchema pInt pFloat pBool opts) := by
  intro rows
  induction rows with
  | nil => intro n; cases n <;> rfl
  | cons r rest ih =>
    intro n
    cases n with
    | zero => rfl
    | succ m =>
      by_cases hr : r = []
      · subst hr
        show getSchemaGo pInt pFloat pBool opts (m + 1) rest = _
        rw [ih (m + 1)]
        simp [List.filter]
      · have hre : r.isEmpty = false := by
          cases r with
          | nil => exact absurd rfl hr
          | cons a as => rfl
        show (if r = [] then getSchemaGo pInt pFloat pBool opts (m + 1) rest
          else mkRowSchema pInt pFloat pBool opts r ::
            getSchemaGo pInt pFloat pBool opts m rest) = _
        rw [if_neg hr, ih m]
        simp [List.filter, hre]

/-- **C9**: schema inference probes each field in the order 64-bit integer,
floating point, boolean, then falls back to varchar — the first success
wins; inferred slots carry positional names `$1`, `$2`, ... ; and the
sampling loop skips blank rows without consuming a sample slot, producing
one candidate schema per non-blank row up to the configured sample count. -/
theorem schema_inference_ladder_names_sampling
    (pInt pFloat pBool : List Nat → Bool) :
    (∀ f : List Nat,
      (pInt f = true → get_type_desc pInt pFloat pBool f = TypeDesc.bigint) ∧
      (pInt f = false → pFloat f = true →
        get_type_desc pInt pFloat pBool f = TypeDesc.double) ∧
      (pInt f = false → pFloat f = false → pBool f = true →
        get_type_desc pInt pFloat pBool f = TypeDesc.boolean) ∧
      (pInt f = false → pFloat f = false → pBool f = false →
        get_type_desc pInt pFloat pBool f =
          TypeDesc.varchar MAX_VARCHAR_LENGTH)) ∧
    (∀ (opts : CSVParseOptions) (rec : List Nat) (k : Nat)
        (hk : k < (split_record opts rec).length)
        (hk2 : k < (mkRowSchema pInt pFloat pBool opts rec).length),
      (mkRowSchema pInt pFloat pBool opts rec).get ⟨k, hk2⟩ =
        ⟨k, "$" ++ toString (k + 1),
          get_type_desc pInt pFloat pBool
            ((split_record opts rec).get ⟨k, hk⟩)⟩) ∧
    (∀ (opts : CSVParseOptions) (n : Nat) (rows : List (List Nat)),
      getSchemaGo pInt pFloat pBool opts n rows =
        ((rows.filter (fun r => !r.isEmpty)).take n).map
          (mkRowSchema pInt pFloat pBool opts)) := by
  refine ⟨fun f => ⟨fun h1 => ?_, fun h1 h2 => ?_, fun h1 h2 h3 => ?_,
    fun h1 h2 h3 => ?_⟩, fun opts rec k hk hk2 => ?_, fun opts n rows => ?_⟩
  · simp [get_type_desc, h1]
  · simp [get_type_desc, h1, h2]
  · simp [get_type_desc, h1, h2, h3]
  · simp [get_type_desc, h1, h2, h3]
  · have h := mkSchemaFields_get pInt pFloat pBool (split_record opts rec)
      0 k hk hk2
    unfold mkRowSchema
    rw [h]
    simp
  · exact getSchemaGo_filter pInt pFloat pBool opts rows n

/-- Witness for C9: with probes accepting `"1"` as integer and `"2"` as
float, the ladder classifies `"1"` as BIGINT; the one-field positions of row
`"1,2"` get names `$1`/`$2`; blank rows are skipped without consuming a
sample slot. -/
theorem schema_inference_ladder_names_sampling_witness :
    get_type_desc (fun f => f == [49]) (fun f => f == [50]) (fun _ => false)
        [50] = TypeDesc.double ∧
    (mkRowSchema (fun f => f == [49]) (fun f => f == [50]) (fun _ => false)
        ⟨[44], [10], 0, false, 0, 0⟩ [49, 44, 50]).get ⟨1, by decide⟩ =
      ⟨1, "$" ++ toString 2,
        get_type_desc (fun f => f == [49]) (fun f => f == [50])
          (fun _ => false) [50]⟩ ∧
    getSchemaGo (fun f => f == [49]) (fun f => f == [50]) (fun _ => false)
        ⟨[44], [10], 0, false, 0, 0⟩ 1 [[], [49, 44, 50], [49]] =
      (([[], [49, 44, 50], [49]].filter (fun r => !r.isEmpty)).take 1).map
        (mkRowSchema (fun f => f == [49]) (fun f => f == [50])
          (fun _ => false) ⟨[44], [10], 0, false, 0, 0⟩) := by
  have h := schema_inference_ladder_names_sampling (fun f => f == [49])
    (fun f => f == [50]) (fun _ => false)
  refine ⟨(h.1 [50]).2.1 (by decide) (by decide), ?_, h.2.2 _ 1 _⟩
  have h2 := h.2.1 ⟨[44], [10], 0, false, 0, 0⟩ [49, 44, 50] 1 (by decide)
    (by decide)
  rw [h2]
  have : (split_record ⟨[44], [10], 0, false, 0, 0⟩ [49, 44, 50]).get
      ⟨1, by decide⟩ = [50] := by decide
  rw [this]

end CsvScanner
